import Mathlib

/-!
# Verification of the Exponential Idle Arrow Solver backend

Shallow embedding of `solver_backend.py`: the hexagonal/grid topology
builders, the modular Gaussian-elimination solver, the composite (mod-6)
solver, and the facade `solve` that replays press counts into solution
steps.  Python integers are embedded as `Int`; Python `%` with a positive
modulus is `Int.emod`; Python `//` is `Int.fdiv`; a Python function that
may raise an uncaught exception is embedded in `Except Unit`; `None` is
`Option.none`.
-/

namespace ArrowSolver

/-- Entry `M[r][c]` of a matrix stored as a list of rows (0 outside). -/
def get2 (M : List (List Int)) (r c : Nat) : Int := (M.getD r []).getD c 0

/-- Python `pow(a, -1, m)` for `m ≥ 1`: the unique inverse of `a` modulo
`m` in `[0, m)`, or `none` when none exists (Python raises `ValueError`;
the caller catches it).  Computed by scanning the candidate residues. -/
def modInv (a m : Int) : Option Int :=
  ((List.range m.toNat).map (Int.ofNat)).find? (fun k => a * k % m == 1)

/-- The scan `while pivot_row < n and Ab[pivot_row, i] == 0`: first row
index in `[i, n)` whose entry in column `i` is a nonzero integer. -/
def pivotScan (Ab : List (List Int)) (i n : Nat) : Option Nat :=
  (List.range' i (n - i)).find? (fun r => !(get2 Ab r i == 0))

/-- `Ab[[i, r]] = Ab[[r, i]]`: swap rows `i` and `r` (matrix rebuilt with
exactly `n` rows, as the source matrix always has). -/
def swapRows (Ab : List (List Int)) (i r n : Nat) : List (List Int) :=
  (List.range n).map (fun j =>
    if j = i then Ab.getD r [] else if j = r then Ab.getD i [] else Ab.getD j [])

/-- `Ab[i] = (Ab[i] * inv) % m`. -/
def scaleRow (row : List Int) (c m : Int) : List Int :=
  row.map (fun v => (v * c) % m)

/-- `Ab[j] = (Ab[j] - Ab[j,i] * Ab[i]) % m` with `c = Ab[j,i]`. -/
def elimRow (rowj rowi : List Int) (c m : Int) : List Int :=
  List.zipWith (fun a p => (a - c * p) % m) rowj rowi

/-- One iteration of the `for i in range(n)` elimination loop:
find a pivot for column `i` (skip the column when there is none), swap it
into place, invert it mod `m` (`None` when the inverse does not exist),
scale the pivot row and eliminate column `i` from every other row. -/
def colStep (m : Int) (n : Nat) (Ab : List (List Int)) (i : Nat) :
    Option (List (List Int)) :=
  match pivotScan Ab i n with
  | none => some Ab
  | some r =>
    let Ab1 := swapRows Ab i r n
    match modInv (get2 Ab1 i i) m with
    | none => none
    | some inv =>
      let piv := scaleRow (Ab1.getD i []) inv m
      some ((List.range n).map (fun j =>
        if j = i then piv else elimRow (Ab1.getD j []) piv (get2 Ab1 j i) m))

/-- The whole elimination loop `for i in range(n)`. -/
def elimLoop (m : Int) (n : Nat) (Ab : List (List Int)) :
    Option (List (List Int)) :=
  (List.range n).foldlM (fun M i => colStep m n M i) Ab

/-- `np.any(np.all(Ab[:, :-1] == 0, axis=1) & (Ab[:, -1] != 0))` negated:
`true` when no row has an all-zero coefficient part with nonzero target. -/
def checkConsistent (n : Nat) (Ab : List (List Int)) : Bool :=
  Ab.all (fun row => !(((row.take n).all (· == 0)) && !(row.getD n 0 == 0)))

/-- `np.dot` of two integer vectors. -/
def dotL (u v : List Int) : Int := (List.zipWith (· * ·) u v).sum

/-- The back-substitution loop `for i in range(n-1, -1, -1)`, building the
solution from the bottom up; `acc` holds `x[i+1:]`. -/
def backSubGo (m : Int) (n : Nat) (Ab : List (List Int)) :
    Nat → List Int → List Int
  | 0, acc => acc
  | (i+1), acc =>
    let row := Ab.getD i []
    let xi :=
      if get2 Ab i i == 1 then
        (row.getD n 0 - dotL ((row.drop (i+1)).take (n - (i+1))) acc) % m
      else 0
    backSubGo m n Ab i (xi :: acc)

/-- `x` as assembled after elimination. -/
def backSub (m : Int) (n : Nat) (Ab : List (List Int)) : List Int :=
  backSubGo m n Ab n []

/-- The body of `gaussian_elimination_mod` after the `np.hstack` call
succeeded: elimination loop, consistency check, back substitution. -/
def gaussCore (m : Int) (n : Nat) (Ab0 : List (List Int)) :
    Option (List Int) :=
  match elimLoop m n Ab0 with
  | none => none
  | some F => if checkConsistent n F then some (backSub m n F) else none

/-- The augmented matrix `np.hstack([A, b.reshape(-1, 1)])`. -/
def augment (A : List (List Int)) (b : List Int) : List (List Int) :=
  List.zipWith (fun row bi => row ++ [bi]) A b

/-- `gaussian_elimination_mod(A, b, m)`.  `np.hstack` raises when `b`
does not have as many entries as `A` has rows (`.error`); otherwise the
function returns a solution or `None`. -/
def gaussian_elimination_mod (A : List (List Int)) (b : List Int) (m : Int) :
    Except Unit (Option (List Int)) :=
  if b.length = A.length then
    .ok (gaussCore m A.length (augment A b))
  else .error ()

/-! ## Hexagon topology (`get_hexagon_board_details`) -/

/-- Python `q & 1` on an `int`: 1 for odd `q` (also negative), 0 for even. -/
def pyAnd1 (q : Int) : Int := q % 2

/-- `axial_to_offset(q, r) = (r + (q - (q & 1)) // 2, q)` (row, col);
Python `//` is floor division. -/
def axialToOffset (a : Int × Int) : Int × Int :=
  (a.2 + (a.1 - pyAnd1 a.1).fdiv 2, a.1)

/-- Python `range(lo, hi + 1)` over `int`s (empty when `hi < lo`). -/
def intRange (lo hi : Int) : List Int :=
  (List.range (hi + 1 - lo).toNat).map (fun k => lo + Int.ofNat k)

/-- The axial coordinates of the radius-`R` hexagon:
`q` from `-R` to `R`, `r` from `max(-R, -q-R)` to `min(R, -q+R)`. -/
def axialCoords (R : Nat) : List (Int × Int) :=
  (intRange (-(R : Int)) R).flatMap (fun q =>
    (intRange (max (-(R : Int)) (-q - R)) (min (R : Int) (-q + R))).map
      (fun r => (q, r)))

/-- `min_r`: least row of the unnormalized offsets. -/
def minRowC (R : Nat) : Int :=
  (((axialCoords R).map (fun a => (axialToOffset a).1)).min?).getD 0

/-- `min_c`: least column of the unnormalized offsets. -/
def minColC (R : Nat) : Int :=
  (((axialCoords R).map (fun a => (axialToOffset a).2)).min?).getD 0

/-- The normalized offset cell of an axial coordinate (the member of
`valid_cells` it maps to). -/
def normCell (R : Nat) (a : Int × Int) : Int × Int :=
  ((axialToOffset a).1 - minRowC R, (axialToOffset a).2 - minColC R)

/-- The six axial direction offsets, in source order. -/
def hexDirs : List (Int × Int) := [(1, 0), (1, -1), (0, -1), (-1, 0), (-1, 1), (0, 1)]

/-- Membership in `axial_to_offset_map` (the valid axial set). -/
def axialMem (R : Nat) (a : Int × Int) : Bool := (axialCoords R).contains a

/-- `adjacency_map_by_coord` at the cell of axial `a`, pulled back to
axial coordinates: the cell itself, then each in-range axial neighbor. -/
def neighborsAxial (R : Nat) (a : Int × Int) : List (Int × Int) :=
  a :: (hexDirs.filterMap (fun d =>
    let b := (a.1 + d.1, a.2 + d.2)
    if axialMem R b then some b else none))

/-- The sort key `(item[1], item[0])` comparison: column, then row. -/
def coordLe (c d : Int × Int) : Bool := c.2 < d.2 || (c.2 == d.2 && c.1 ≤ d.1)

/-- `sorted_coords`: the valid cells sorted by (column, row). -/
def sortedCoords (R : Nat) : List (Int × Int) :=
  List.insertionSort (fun c d => coordLe c d = true) ((axialCoords R).map (normCell R))

/-- `coord_to_index[c]`: position of a cell in `sorted_coords`. -/
def coordToIndex (R : Nat) (c : Int × Int) : Nat :=
  (sortedCoords R).findIdx (· == c)

/-- One entry of `adj_map_indices`: neighbor cells of the cell `c`,
translated to indices and sorted. -/
def hexAdjRow (R : Nat) (c : Int × Int) : List Nat :=
  match (axialCoords R).find? (fun a => normCell R a == c) with
  | some a =>
    List.insertionSort (· ≤ ·)
      ((neighborsAxial R a).map (fun b => coordToIndex R (normCell R b)))
  | none => []

/-- `get_hexagon_board_details(R)`: entry `k` is the sorted affected-index
list of the button whose tile index is `k`. -/
def hexAdjMap (R : Nat) : List (List Nat) := (sortedCoords R).map (hexAdjRow R)

/-! ## Facade (`solve`) -/

/-- The grid adjacency comprehension: tiles within Chebyshev distance 1
of button `k` on an `s × s` board. -/
def gridAdj (s : Nat) (k : Nat) : List Nat :=
  (List.range (s * s)).filter (fun i =>
    (((i / s : Nat) : Int) - ((k / s : Nat) : Int)).natAbs ≤ 1 &&
    (((i % s : Nat) : Int) - ((k % s : Nat) : Int)).natAbs ≤ 1)

/-- The difficulty dispatch table of `solve`. -/
structure Config where
  n : Nat
  size_rc : Nat
  modulus : Int
  isGrid : Bool
deriving Repr, DecidableEq

/-- `difficulty → (n, modulus, layout)`; `none` for unrecognized labels. -/
def difficultyConfig (d : String) : Option Config :=
  if d = "easy" then some ⟨9, 3, 4, true⟩
  else if d = "medium" then some ⟨16, 4, 4, true⟩
  else if d = "hard" then some ⟨37, 0, 2, false⟩
  else if d = "expert" then some ⟨37, 0, 6, false⟩
  else none

/-- The adjacency map the facade uses for a configuration. -/
def adjOf (cfg : Config) : Nat → List Nat :=
  if cfg.isGrid then gridAdj cfg.size_rc else fun k => (hexAdjMap 3).getD k []

/-- The effects matrix: `A[tile, button] = 1` iff `tile` is affected by
`button`. -/
def buildA (n : Nat) (adj : Nat → List Nat) : List (List Int) :=
  (List.range n).map (fun t => (List.range n).map (fun btn =>
    if (adj btn).contains t then 1 else 0))

/-- A recorded click: a bare tile index (hexagon) or `[row, col]` (grid). -/
inductive ClickVal
  | hexC (i : Nat)
  | gridC (r c : Nat)
deriving Repr, DecidableEq

/-- One solution step: the click, its affected tiles, and the board
snapshot after the press. -/
structure SolutionStep where
  click : ClickVal
  affected_tiles : List Nat
  board_state : List Int
deriving Repr, DecidableEq

/-- Apply one press: every affected tile is updated by
`new = ((old - 1 + 1) % modulus) + 1`. -/
def applyClick (m : Int) (affected : List Nat) (board : List Int) : List Int :=
  affected.foldl (fun bd t => bd.set t ((bd.getD t 0 - 1 + 1) % m + 1)) board

/-- `click_index`: grid clicks are decoded as `row * size + col`. -/
def clickIndex (cfg : Config) : ClickVal → Nat
  | .hexC i => i
  | .gridC r c => r * cfg.size_rc + c

/-- `click_path`: button `i` repeated `x[i]` times, ascending `i`. -/
def clickPath (cfg : Config) (x : List Int) : List ClickVal :=
  (List.range cfg.n).flatMap (fun i =>
    let count := x.getD i 0
    if count > 0 then
      List.replicate count.toNat
        (if cfg.isGrid then ClickVal.gridC (i / cfg.size_rc) (i % cfg.size_rc)
         else ClickVal.hexC i)
    else [])

/-- The replay loop: apply each click in order, recording a step after
every single press; returns the steps and the final board. -/
def replay (cfg : Config) (adj : Nat → List Nat) (path : List ClickVal)
    (board : List Int) : List SolutionStep × List Int :=
  path.foldl (fun st cv =>
    let ci := clickIndex cfg cv
    let aff := adj ci
    let bd := applyClick cfg.modulus aff st.2
    (st.1 ++ [⟨cv, aff, bd⟩], bd)) ([], board)

/-- The CRT reconstruction loop: for each tile the first `k` in `0..5`
with `k % 2 == x2[i]` and `k % 3 == x3[i]` (0 when none matches). -/
def crtCombine (n : Nat) (x2 x3 : List Int) : List Int :=
  (List.range n).map (fun i =>
    (((List.range 6).find? (fun (k : Nat) =>
        (Int.ofNat k % 2 == x2.getD i 0) && (Int.ofNat k % 3 == x3.getD i 0))).map
      (Int.ofNat)).getD 0)

/-- The dispatch to the plain or composite solver. -/
def solveX (cfg : Config) (A : List (List Int)) (b : List Int)
    (expert : Bool) : Except Unit (Option (List Int)) :=
  if expert then do
    let x2? ← gaussian_elimination_mod A (b.map (· % 2)) 2
    let x3? ← gaussian_elimination_mod A (b.map (· % 3)) 3
    match x2?, x3? with
    | some x2, some x3 => pure (some (crtCombine cfg.n x2 x3))
    | _, _ => pure none
  else gaussian_elimination_mod A b cfg.modulus

/-- `solve(initial_board, difficulty)` on the flattened board.  `.ok none`
is Python `None`; `.error ()` is an uncaught exception (malformed board
length). -/
def solve (initialFlat : List Int) (difficulty : String) :
    Except Unit (Option (List SolutionStep)) :=
  match difficultyConfig difficulty with
  | none => .ok none
  | some cfg =>
    let adj := adjOf cfg
    let A := buildA cfg.n adj
    let b := initialFlat.map (fun v => (1 - v) % cfg.modulus)
    match solveX cfg A b (difficulty = "expert") with
    | .error e => .error e
    | .ok none => .ok none
    | .ok (some x) =>
      .ok (some (replay cfg adj (clickPath cfg x) initialFlat).1)

/-! ## Proof-layer definitions -/

/-- The mod-`m` linear-system reading of an augmented row: the first `n`
entries are coefficients, entry `n` is the target. -/
def SDot (n : Nat) (row x : List Int) : Int :=
  ∑ k ∈ Finset.range n, row.getD k 0 * x.getD k 0

/-- `x` satisfies one augmented row mod `m`. -/
def rowSat (m : Int) (n : Nat) (row x : List Int) : Prop :=
  SDot n row x ≡ row.getD n 0 [ZMOD m]

/-- `x` satisfies every row of the augmented system. -/
def satSys (m : Int) (n : Nat) (Ab : List (List Int)) (x : List Int) : Prop :=
  ∀ r < n, rowSat m n (Ab.getD r []) x

/-- Well-formed augmented matrix: `n` rows of `n + 1` entries. -/
def WFA (n : Nat) (Ab : List (List Int)) : Prop :=
  Ab.length = n ∧ ∀ r < n, (Ab.getD r []).length = n + 1

/-- The coefficient part of an augmented matrix. -/
def takeN (n : Nat) (M : List (List Int)) : List (List Int) :=
  M.map (fun row => row.take n)

/-- The mathematical value of the back-substitution suffix starting at
row `i` (entries for indices `i .. n-1`). -/
def xList (m : Int) (n : Nat) (F : List (List Int)) (i : Nat) : List Int :=
  if h : i < n then
    (let row := F.getD i []
     let xs := xList m n F (i + 1)
     (if get2 F i i == 1 then
        (row.getD n 0 - dotL ((row.drop (i + 1)).take (n - (i + 1))) xs) % m
      else 0)) :: xList m n F (i + 1)
  else []
termination_by n - i

/-- The structural certificate of a final (eliminated) matrix that makes
the returned particular solution valid: every column whose diagonal entry
is 1 is zero (mod `m`) off the diagonal, and every row whose diagonal
entry is not 1 is identically zero in its coefficient part. -/
def GOODB (m : Int) (n : Nat) (F : List (List Int)) : Bool :=
  (List.range n).all (fun r => (List.range n).all (fun k =>
    ((r == k) || !(get2 F k k == 1) || (get2 F r k % m == 0)) &&
    ((get2 F r r == 1) || (get2 F r k == 0))))

/-- The final matrix of the elimination run on `A` augmented with the
zero vector (the coefficient part does not depend on the target column). -/
def refMatrix (A : List (List Int)) (m : Int) (n : Nat) :
    Option (List (List Int)) :=
  elimLoop m n (augment A (List.replicate n 0))

/-- Soundness certificate for a concrete coefficient matrix and modulus:
either elimination always fails, or its final matrix is `GOODB`. -/
def certOK (A : List (List Int)) (m : Int) (n : Nat) : Bool :=
  match refMatrix A m n with
  | some Fr => GOODB m n Fr
  | none => true

/-- Entry `k` of the back-substituted solution. -/
def xEntry (m : Int) (n : Nat) (F : List (List Int)) (k : Nat) : Int :=
  (xList m n F k).getD 0 0

/-- The propositional reading of `GOODB`. -/
def GOODP (m : Int) (n : Nat) (F : List (List Int)) : Prop :=
  ∀ r < n, ∀ k < n,
    (k ≠ r → get2 F k k = 1 → get2 F r k % m = 0) ∧
    (get2 F r r ≠ 1 → get2 F r k = 0)

/-- Number of clicks in a path that affect tile `t`. -/
def pressCount (adj : Nat → List Nat) (cfg : Config) (path : List ClickVal)
    (t : Nat) : Nat :=
  path.countP (fun cv => (adj (clickIndex cfg cv)).contains t)

/-- The board after the last recorded step (the initial board when no
step was recorded). -/
def finalBoardOf (steps : List SolutionStep) (board : List Int) : List Int :=
  match steps.getLast? with
  | some st => st.board_state
  | none => board

/-- The CRT table lookup used by the composite solve for one tile. -/
def crtFind (a c : Int) : Int :=
  (((List.range 6).find? (fun (k : Nat) =>
      (Int.ofNat k % 2 == a) && (Int.ofNat k % 3 == c))).map (Int.ofNat)).getD 0

/-- The elimination loop stopped after the first `i` columns. -/
def partialElim (m : Int) (n : Nat) (Ab0 : List (List Int)) (i : Nat) :
    Option (List (List Int)) :=
  (List.range i).foldlM (fun M j => colStep m n M j) Ab0

/-- A hard-mode board with a single unlit tile; its mod-2 system is
inconsistent. -/
def badHardBoard : List Int := 0 :: List.replicate 36 1


/-- The radius-3 adjacency map written out; `hexAdjMap3_eq` below checks
it against the builder. -/
def adjLitC : List (List Nat) :=
  [[0, 1, 4, 5],
  [0, 1, 2, 5, 6],
  [1, 2, 3, 6, 7],
  [2, 3, 7, 8],
  [0, 4, 5, 9, 10],
  [0, 1, 4, 5, 6, 10, 11],
  [1, 2, 5, 6, 7, 11, 12],
  [2, 3, 6, 7, 8, 12, 13],
  [3, 7, 8, 13, 14],
  [4, 9, 10, 15, 16],
  [4, 5, 9, 10, 11, 16, 17],
  [5, 6, 10, 11, 12, 17, 18],
  [6, 7, 11, 12, 13, 18, 19],
  [7, 8, 12, 13, 14, 19, 20],
  [8, 13, 14, 20, 21],
  [9, 15, 16, 22],
  [9, 10, 15, 16, 17, 22, 23],
  [10, 11, 16, 17, 18, 23, 24],
  [11, 12, 17, 18, 19, 24, 25],
  [12, 13, 18, 19, 20, 25, 26],
  [13, 14, 19, 20, 21, 26, 27],
  [14, 20, 21, 27],
  [15, 16, 22, 23, 28],
  [16, 17, 22, 23, 24, 28, 29],
  [17, 18, 23, 24, 25, 29, 30],
  [18, 19, 24, 25, 26, 30, 31],
  [19, 20, 25, 26, 27, 31, 32],
  [20, 21, 26, 27, 32],
  [22, 23, 28, 29, 33],
  [23, 24, 28, 29, 30, 33, 34],
  [24, 25, 29, 30, 31, 34, 35],
  [25, 26, 30, 31, 32, 35, 36],
  [26, 27, 31, 32, 36],
  [28, 29, 33, 34],
  [29, 30, 33, 34, 35],
  [30, 31, 34, 35, 36],
  [31, 32, 35, 36]]

/-- The 37-tile effects matrix written out; `buildA_hex_eq` below checks
it against `buildA`. -/
def AhexC : List (List Int) :=
  [[1, 1, 0, 0, 1, 1, 0, 0, 0, 0, 0, 0, 0, 0, 0, 0, 0, 0, 0, 0, 0, 0, 0, 0, 0, 0, 0, 0, 0, 0, 0, 0, 0, 0, 0, 0, 0],
  [1, 1, 1, 0, 0, 1, 1, 0, 0, 0, 0, 0, 0, 0, 0, 0, 0, 0, 0, 0, 0, 0, 0, 0, 0, 0, 0, 0, 0, 0, 0, 0, 0, 0, 0, 0, 0],
  [0, 1, 1, 1, 0, 0, 1, 1, 0, 0, 0, 0, 0, 0, 0, 0, 0, 0, 0, 0, 0, 0, 0, 0, 0, 0, 0, 0, 0, 0, 0, 0, 0, 0, 0, 0, 0],
  [0, 0, 1, 1, 0, 0, 0, 1, 1, 0, 0, 0, 0, 0, 0, 0, 0, 0, 0, 0, 0, 0, 0, 0, 0, 0, 0, 0, 0, 0, 0, 0, 0, 0, 0, 0, 0],
  [1, 0, 0, 0, 1, 1, 0, 0, 0, 1, 1, 0, 0, 0, 0, 0, 0, 0, 0, 0, 0, 0, 0, 0, 0, 0, 0, 0, 0, 0, 0, 0, 0, 0, 0, 0, 0],
  [1, 1, 0, 0, 1, 1, 1, 0, 0, 0, 1, 1, 0, 0, 0, 0, 0, 0, 0, 0, 0, 0, 0, 0, 0, 0, 0, 0, 0, 0, 0, 0, 0, 0, 0, 0, 0],
  [0, 1, 1, 0, 0, 1, 1, 1, 0, 0, 0, 1, 1, 0, 0, 0, 0, 0, 0, 0, 0, 0, 0, 0, 0, 0, 0, 0, 0, 0, 0, 0, 0, 0, 0, 0, 0],
  [0, 0, 1, 1, 0, 0, 1, 1, 1, 0, 0, 0, 1, 1, 0, 0, 0, 0, 0, 0, 0, 0, 0, 0, 0, 0, 0, 0, 0, 0, 0, 0, 0, 0, 0, 0, 0],
  [0, 0, 0, 1, 0, 0, 0, 1, 1, 0, 0, 0, 0, 1, 1, 0, 0, 0, 0, 0, 0, 0, 0, 0, 0, 0, 0, 0, 0, 0, 0, 0, 0, 0, 0, 0, 0],
  [0, 0, 0, 0, 1, 0, 0, 0, 0, 1, 1, 0, 0, 0, 0, 1, 1, 0, 0, 0, 0, 0, 0, 0, 0, 0, 0, 0, 0, 0, 0, 0, 0, 0, 0, 0, 0],
  [0, 0, 0, 0, 1, 1, 0, 0, 0, 1, 1, 1, 0, 0, 0, 0, 1, 1, 0, 0, 0, 0, 0, 0, 0, 0, 0, 0, 0, 0, 0, 0, 0, 0, 0, 0, 0],
  [0, 0, 0, 0, 0, 1, 1, 0, 0, 0, 1, 1, 1, 0, 0, 0, 0, 1, 1, 0, 0, 0, 0, 0, 0, 0, 0, 0, 0, 0, 0, 0, 0, 0, 0, 0, 0],
  [0, 0, 0, 0, 0, 0, 1, 1, 0, 0, 0, 1, 1, 1, 0, 0, 0, 0, 1, 1, 0, 0, 0, 0, 0, 0, 0, 0, 0, 0, 0, 0, 0, 0, 0, 0, 0],
  [0, 0, 0, 0, 0, 0, 0, 1, 1, 0, 0, 0, 1, 1, 1, 0, 0, 0, 0, 1, 1, 0, 0, 0, 0, 0, 0, 0, 0, 0, 0, 0, 0, 0, 0, 0, 0],
  [0, 0, 0, 0, 0, 0, 0, 0, 1, 0, 0, 0, 0, 1, 1, 0, 0, 0, 0, 0, 1, 1, 0, 0, 0, 0, 0, 0, 0, 0, 0, 0, 0, 0, 0, 0, 0],
  [0, 0, 0, 0, 0, 0, 0, 0, 0, 1, 0, 0, 0, 0, 0, 1, 1, 0, 0, 0, 0, 0, 1, 0, 0, 0, 0, 0, 0, 0, 0, 0, 0, 0, 0, 0, 0],
  [0, 0, 0, 0, 0, 0, 0, 0, 0, 1, 1, 0, 0, 0, 0, 1, 1, 1, 0, 0, 0, 0, 1, 1, 0, 0, 0, 0, 0, 0, 0, 0, 0, 0, 0, 0, 0],
  [0, 0, 0, 0, 0, 0, 0, 0, 0, 0, 1, 1, 0, 0, 0, 0, 1, 1, 1, 0, 0, 0, 0, 1, 1, 0, 0, 0, 0, 0, 0, 0, 0, 0, 0, 0, 0],
  [0, 0, 0, 0, 0, 0, 0, 0, 0, 0, 0, 1, 1, 0, 0, 0, 0, 1, 1, 1, 0, 0, 0, 0, 1, 1, 0, 0, 0, 0, 0, 0, 0, 0, 0, 0, 0],
  [0, 0, 0, 0, 0, 0, 0, 0, 0, 0, 0, 0, 1, 1, 0, 0, 0, 0, 1, 1, 1, 0, 0, 0, 0, 1, 1, 0, 0, 0, 0, 0, 0, 0, 0, 0, 0],
  [0, 0, 0, 0, 0, 0, 0, 0, 0, 0, 0, 0, 0, 1, 1, 0, 0, 0, 0, 1, 1, 1, 0, 0, 0, 0, 1, 1, 0, 0, 0, 0, 0, 0, 0, 0, 0],
  [0, 0, 0, 0, 0, 0, 0, 0, 0, 0, 0, 0, 0, 0, 1, 0, 0, 0, 0, 0, 1, 1, 0, 0, 0, 0, 0, 1, 0, 0, 0, 0, 0, 0, 0, 0, 0],
  [0, 0, 0, 0, 0, 0, 0, 0, 0, 0, 0, 0, 0, 0, 0, 1, 1, 0, 0, 0, 0, 0, 1, 1, 0, 0, 0, 0, 1, 0, 0, 0, 0, 0, 0, 0, 0],
  [0, 0, 0, 0, 0, 0, 0, 0, 0, 0, 0, 0, 0, 0, 0, 0, 1, 1, 0, 0, 0, 0, 1, 1, 1, 0, 0, 0, 1, 1, 0, 0, 0, 0, 0, 0, 0],
  [0, 0, 0, 0, 0, 0, 0, 0, 0, 0, 0, 0, 0, 0, 0, 0, 0, 1, 1, 0, 0, 0, 0, 1, 1, 1, 0, 0, 0, 1, 1, 0, 0, 0, 0, 0, 0],
  [0, 0, 0, 0, 0, 0, 0, 0, 0, 0, 0, 0, 0, 0, 0, 0, 0, 0, 1, 1, 0, 0, 0, 0, 1, 1, 1, 0, 0, 0, 1, 1, 0, 0, 0, 0, 0],
  [0, 0, 0, 0, 0, 0, 0, 0, 0, 0, 0, 0, 0, 0, 0, 0, 0, 0, 0, 1, 1, 0, 0, 0, 0, 1, 1, 1, 0, 0, 0, 1, 1, 0, 0, 0, 0],
  [0, 0, 0, 0, 0, 0, 0, 0, 0, 0, 0, 0, 0, 0, 0, 0, 0, 0, 0, 0, 1, 1, 0, 0, 0, 0, 1, 1, 0, 0, 0, 0, 1, 0, 0, 0, 0],
  [0, 0, 0, 0, 0, 0, 0, 0, 0, 0, 0, 0, 0, 0, 0, 0, 0, 0, 0, 0, 0, 0, 1, 1, 0, 0, 0, 0, 1, 1, 0, 0, 0, 1, 0, 0, 0],
  [0, 0, 0, 0, 0, 0, 0, 0, 0, 0, 0, 0, 0, 0, 0, 0, 0, 0, 0, 0, 0, 0, 0, 1, 1, 0, 0, 0, 1, 1, 1, 0, 0, 1, 1, 0, 0],
  [0, 0, 0, 0, 0, 0, 0, 0, 0, 0, 0, 0, 0, 0, 0, 0, 0, 0, 0, 0, 0, 0, 0, 0, 1, 1, 0, 0, 0, 1, 1, 1, 0, 0, 1, 1, 0],
  [0, 0, 0, 0, 0, 0, 0, 0, 0, 0, 0, 0, 0, 0, 0, 0, 0, 0, 0, 0, 0, 0, 0, 0, 0, 1, 1, 0, 0, 0, 1, 1, 1, 0, 0, 1, 1],
  [0, 0, 0, 0, 0, 0, 0, 0, 0, 0, 0, 0, 0, 0, 0, 0, 0, 0, 0, 0, 0, 0, 0, 0, 0, 0, 1, 1, 0, 0, 0, 1, 1, 0, 0, 0, 1],
  [0, 0, 0, 0, 0, 0, 0, 0, 0, 0, 0, 0, 0, 0, 0, 0, 0, 0, 0, 0, 0, 0, 0, 0, 0, 0, 0, 0, 1, 1, 0, 0, 0, 1, 1, 0, 0],
  [0, 0, 0, 0, 0, 0, 0, 0, 0, 0, 0, 0, 0, 0, 0, 0, 0, 0, 0, 0, 0, 0, 0, 0, 0, 0, 0, 0, 0, 1, 1, 0, 0, 1, 1, 1, 0],
  [0, 0, 0, 0, 0, 0, 0, 0, 0, 0, 0, 0, 0, 0, 0, 0, 0, 0, 0, 0, 0, 0, 0, 0, 0, 0, 0, 0, 0, 0, 1, 1, 0, 0, 1, 1, 1],
  [0, 0, 0, 0, 0, 0, 0, 0, 0, 0, 0, 0, 0, 0, 0, 0, 0, 0, 0, 0, 0, 0, 0, 0, 0, 0, 0, 0, 0, 0, 0, 1, 1, 0, 0, 1, 1]]

/-- The eliminated matrix of the hexagon system mod 2 with the zero
target column (checked by `elim2_zero`). -/
def F2C : List (List Int) :=
  [[1, 0, 0, 0, 0, 0, 0, 0, 0, 0, 0, 0, 0, 0, 0, 0, 0, 0, 0, 0, 0, 0, 0, 0, 0, 0, 0, 0, 0, 0, 0, 0, 0, 0, 0, 0, 1,   0],
  [0, 1, 0, 0, 0, 0, 0, 0, 0, 0, 0, 0, 0, 0, 0, 0, 0, 0, 0, 0, 0, 0, 0, 0, 0, 0, 0, 0, 0, 0, 0, 0, 0, 1, 1, 0, 1, 0],
  [0, 0, 1, 0, 0, 0, 0, 0, 0, 0, 0, 0, 0, 0, 0, 0, 0, 0, 0, 0, 0, 0, 0, 0, 0, 0, 0, 0, 0, 0, 0, 0, 0, 1, 0, 1, 1, 0],
  [0, 0, 0, 1, 0, 0, 0, 0, 0, 0, 0, 0, 0, 0, 0, 0, 0, 0, 0, 0, 0, 0, 0, 0, 0, 0, 0, 0, 0, 0, 0, 0, 0, 1, 0, 0, 0, 0],
  [0, 0, 0, 0, 1, 0, 0, 0, 0, 0, 0, 0, 0, 0, 0, 0, 0, 0, 0, 0, 0, 0, 0, 0, 0, 0, 0, 0, 0, 0, 0, 0, 0, 1, 1, 0, 1, 0],
  [0, 0, 0, 0, 0, 1, 0, 0, 0, 0, 0, 0, 0, 0, 0, 0, 0, 0, 0, 0, 0, 0, 0, 0, 0, 0, 0, 0, 0, 0, 0, 0, 0, 0, 0, 0, 1, 0],
  [0, 0, 0, 0, 0, 0, 1, 0, 0, 0, 0, 0, 0, 0, 0, 0, 0, 0, 0, 0, 0, 0, 0, 0, 0, 0, 0, 0, 0, 0, 0, 0, 0, 0, 1, 1, 0, 0],
  [0, 0, 0, 0, 0, 0, 0, 1, 0, 0, 0, 0, 0, 0, 0, 0, 0, 0, 0, 0, 0, 0, 0, 0, 0, 0, 0, 0, 0, 0, 0, 0, 0, 1, 0, 0, 0, 0],
  [0, 0, 0, 0, 0, 0, 0, 0, 1, 0, 0, 0, 0, 0, 0, 0, 0, 0, 0, 0, 0, 0, 0, 0, 0, 0, 0, 0, 0, 0, 0, 0, 0, 1, 0, 1, 1, 0],
  [0, 0, 0, 0, 0, 0, 0, 0, 0, 1, 0, 0, 0, 0, 0, 0, 0, 0, 0, 0, 0, 0, 0, 0, 0, 0, 0, 0, 0, 0, 0, 0, 0, 1, 0, 1, 0, 0],
  [0, 0, 0, 0, 0, 0, 0, 0, 0, 0, 1, 0, 0, 0, 0, 0, 0, 0, 0, 0, 0, 0, 0, 0, 0, 0, 0, 0, 0, 0, 0, 0, 0, 0, 1, 1, 1, 0],
  [0, 0, 0, 0, 0, 0, 0, 0, 0, 0, 0, 1, 0, 0, 0, 0, 0, 0, 0, 0, 0, 0, 0, 0, 0, 0, 0, 0, 0, 0, 0, 0, 0, 0, 0, 0, 1, 0],
  [0, 0, 0, 0, 0, 0, 0, 0, 0, 0, 0, 0, 1, 0, 0, 0, 0, 0, 0, 0, 0, 0, 0, 0, 0, 0, 0, 0, 0, 0, 0, 0, 0, 1, 0, 0, 0, 0],
  [0, 0, 0, 0, 0, 0, 0, 0, 0, 0, 0, 0, 0, 1, 0, 0, 0, 0, 0, 0, 0, 0, 0, 0, 0, 0, 0, 0, 0, 0, 0, 0, 0, 1, 1, 1, 0, 0],
  [0, 0, 0, 0, 0, 0, 0, 0, 0, 0, 0, 0, 0, 0, 1, 0, 0, 0, 0, 0, 0, 0, 0, 0, 0, 0, 0, 0, 0, 0, 0, 0, 0, 0, 1, 0, 1, 0],
  [0, 0, 0, 0, 0, 0, 0, 0, 0, 0, 0, 0, 0, 0, 0, 1, 0, 0, 0, 0, 0, 0, 0, 0, 0, 0, 0, 0, 0, 0, 0, 0, 0, 1, 0, 0, 1, 0],
  [0, 0, 0, 0, 0, 0, 0, 0, 0, 0, 0, 0, 0, 0, 0, 0, 1, 0, 0, 0, 0, 0, 0, 0, 0, 0, 0, 0, 0, 0, 0, 0, 0, 1, 0, 0, 1, 0],
  [0, 0, 0, 0, 0, 0, 0, 0, 0, 0, 0, 0, 0, 0, 0, 0, 0, 1, 0, 0, 0, 0, 0, 0, 0, 0, 0, 0, 0, 0, 0, 0, 0, 1, 0, 0, 1, 0],
  [0, 0, 0, 0, 0, 0, 0, 0, 0, 0, 0, 0, 0, 0, 0, 0, 0, 0, 1, 0, 0, 0, 0, 0, 0, 0, 0, 0, 0, 0, 0, 0, 0, 0, 0, 0, 0, 0],
  [0, 0, 0, 0, 0, 0, 0, 0, 0, 0, 0, 0, 0, 0, 0, 0, 0, 0, 0, 1, 0, 0, 0, 0, 0, 0, 0, 0, 0, 0, 0, 0, 0, 1, 0, 0, 1, 0],
  [0, 0, 0, 0, 0, 0, 0, 0, 0, 0, 0, 0, 0, 0, 0, 0, 0, 0, 0, 0, 1, 0, 0, 0, 0, 0, 0, 0, 0, 0, 0, 0, 0, 1, 0, 0, 1, 0],
  [0, 0, 0, 0, 0, 0, 0, 0, 0, 0, 0, 0, 0, 0, 0, 0, 0, 0, 0, 0, 0, 1, 0, 0, 0, 0, 0, 0, 0, 0, 0, 0, 0, 1, 0, 0, 1, 0],
  [0, 0, 0, 0, 0, 0, 0, 0, 0, 0, 0, 0, 0, 0, 0, 0, 0, 0, 0, 0, 0, 0, 1, 0, 0, 0, 0, 0, 0, 0, 0, 0, 0, 1, 0, 1, 0, 0],
  [0, 0, 0, 0, 0, 0, 0, 0, 0, 0, 0, 0, 0, 0, 0, 0, 0, 0, 0, 0, 0, 0, 0, 1, 0, 0, 0, 0, 0, 0, 0, 0, 0, 1, 1, 1, 0, 0],
  [0, 0, 0, 0, 0, 0, 0, 0, 0, 0, 0, 0, 0, 0, 0, 0, 0, 0, 0, 0, 0, 0, 0, 0, 1, 0, 0, 0, 0, 0, 0, 0, 0, 1, 0, 0, 0, 0],
  [0, 0, 0, 0, 0, 0, 0, 0, 0, 0, 0, 0, 0, 0, 0, 0, 0, 0, 0, 0, 0, 0, 0, 0, 0, 1, 0, 0, 0, 0, 0, 0, 0, 0, 0, 0, 1, 0],
  [0, 0, 0, 0, 0, 0, 0, 0, 0, 0, 0, 0, 0, 0, 0, 0, 0, 0, 0, 0, 0, 0, 0, 0, 0, 0, 1, 0, 0, 0, 0, 0, 0, 0, 1, 1, 1, 0],
  [0, 0, 0, 0, 0, 0, 0, 0, 0, 0, 0, 0, 0, 0, 0, 0, 0, 0, 0, 0, 0, 0, 0, 0, 0, 0, 0, 1, 0, 0, 0, 0, 0, 0, 1, 0, 1, 0],
  [0, 0, 0, 0, 0, 0, 0, 0, 0, 0, 0, 0, 0, 0, 0, 0, 0, 0, 0, 0, 0, 0, 0, 0, 0, 0, 0, 0, 1, 0, 0, 0, 0, 0, 1, 0, 0, 0],
  [0, 0, 0, 0, 0, 0, 0, 0, 0, 0, 0, 0, 0, 0, 0, 0, 0, 0, 0, 0, 0, 0, 0, 0, 0, 0, 0, 0, 0, 1, 0, 0, 0, 1, 0, 0, 0, 0],
  [0, 0, 0, 0, 0, 0, 0, 0, 0, 0, 0, 0, 0, 0, 0, 0, 0, 0, 0, 0, 0, 0, 0, 0, 0, 0, 0, 0, 0, 0, 1, 0, 0, 0, 1, 1, 0, 0],
  [0, 0, 0, 0, 0, 0, 0, 0, 0, 0, 0, 0, 0, 0, 0, 0, 0, 0, 0, 0, 0, 0, 0, 0, 0, 0, 0, 0, 0, 0, 0, 1, 0, 0, 0, 0, 1, 0],
  [0, 0, 0, 0, 0, 0, 0, 0, 0, 0, 0, 0, 0, 0, 0, 0, 0, 0, 0, 0, 0, 0, 0, 0, 0, 0, 0, 0, 0, 0, 0, 0, 1, 0, 0, 1, 0, 0],
  [0, 0, 0, 0, 0, 0, 0, 0, 0, 0, 0, 0, 0, 0, 0, 0, 0, 0, 0, 0, 0, 0, 0, 0, 0, 0, 0, 0, 0, 0, 0, 0, 0, 0, 0, 0, 0, 0],
  [0, 0, 0, 0, 0, 0, 0, 0, 0, 0, 0, 0, 0, 0, 0, 0, 0, 0, 0, 0, 0, 0, 0, 0, 0, 0, 0, 0, 0, 0, 0, 0, 0, 0, 0, 0, 0, 0],
  [0, 0, 0, 0, 0, 0, 0, 0, 0, 0, 0, 0, 0, 0, 0, 0, 0, 0, 0, 0, 0, 0, 0, 0, 0, 0, 0, 0, 0, 0, 0, 0, 0, 0, 0, 0, 0, 0],
  [0, 0, 0, 0, 0, 0, 0, 0, 0, 0, 0, 0, 0, 0, 0, 0, 0, 0, 0, 0, 0, 0, 0, 0, 0, 0, 0, 0, 0, 0, 0, 0, 0, 0, 0, 0, 0, 0]]

/-- The eliminated matrix of the hexagon system mod 3 with the zero
target column (checked by `elim3_zero`). -/
def F3C : List (List Int) :=
  [[1, 0, 0, 0, 0, 0, 0, 0, 0, 0, 0, 0, 0, 0, 0, 0, 0, 0, 0, 0, 0, 0, 0, 0, 0, 0, 0, 0, 0, 0, 0, 0, 0, 0, 0, 0, 1,   0],
  [0, 1, 0, 0, 0, 0, 0, 0, 0, 0, 0, 0, 0, 0, 0, 0, 0, 0, 0, 0, 0, 0, 0, 0, 0, 0, 0, 0, 0, 0, 0, 0, 1, 1, 1, 1, 2, 0],
  [0, 0, 1, 0, 0, 0, 0, 0, 0, 0, 0, 0, 0, 0, 0, 0, 0, 0, 0, 0, 0, 0, 0, 0, 0, 0, 0, 0, 0, 0, 0, 0, 1, 2, 0, 2, 1, 0],
  [0, 0, 0, 1, 0, 0, 0, 0, 0, 0, 0, 0, 0, 0, 0, 0, 0, 0, 0, 0, 0, 0, 0, 0, 0, 0, 0, 0, 0, 0, 0, 0, 0, 1, 0, 0, 0, 0],
  [0, 0, 0, 0, 1, 0, 0, 0, 0, 0, 0, 0, 0, 0, 0, 0, 0, 0, 0, 0, 0, 0, 0, 0, 0, 0, 0, 0, 0, 0, 0, 0, 1, 2, 2, 1, 1, 0],
  [0, 0, 0, 0, 0, 1, 0, 0, 0, 0, 0, 0, 0, 0, 0, 0, 0, 0, 0, 0, 0, 0, 0, 0, 0, 0, 0, 0, 0, 0, 0, 0, 1, 0, 0, 1, 2, 0],
  [0, 0, 0, 0, 0, 0, 1, 0, 0, 0, 0, 0, 0, 0, 0, 0, 0, 0, 0, 0, 0, 0, 0, 0, 0, 0, 0, 0, 0, 0, 0, 0, 0, 0, 2, 2, 0, 0],
  [0, 0, 0, 0, 0, 0, 0, 1, 0, 0, 0, 0, 0, 0, 0, 0, 0, 0, 0, 0, 0, 0, 0, 0, 0, 0, 0, 0, 0, 0, 0, 0, 1, 2, 0, 1, 0, 0],
  [0, 0, 0, 0, 0, 0, 0, 0, 1, 0, 0, 0, 0, 0, 0, 0, 0, 0, 0, 0, 0, 0, 0, 0, 0, 0, 0, 0, 0, 0, 0, 0, 1, 1, 0, 0, 2, 0],
  [0, 0, 0, 0, 0, 0, 0, 0, 0, 1, 0, 0, 0, 0, 0, 0, 0, 0, 0, 0, 0, 0, 0, 0, 0, 0, 0, 0, 0, 0, 0, 0, 2, 1, 0, 1, 0, 0],
  [0, 0, 0, 0, 0, 0, 0, 0, 0, 0, 1, 0, 0, 0, 0, 0, 0, 0, 0, 0, 0, 0, 0, 0, 0, 0, 0, 0, 0, 0, 0, 0, 2, 0, 1, 0, 2, 0],
  [0, 0, 0, 0, 0, 0, 0, 0, 0, 0, 0, 1, 0, 0, 0, 0, 0, 0, 0, 0, 0, 0, 0, 0, 0, 0, 0, 0, 0, 0, 0, 0, 1, 0, 0, 1, 1, 0],
  [0, 0, 0, 0, 0, 0, 0, 0, 0, 0, 0, 0, 1, 0, 0, 0, 0, 0, 0, 0, 0, 0, 0, 0, 0, 0, 0, 0, 0, 0, 0, 0, 1, 1, 0, 1, 0, 0],
  [0, 0, 0, 0, 0, 0, 0, 0, 0, 0, 0, 0, 0, 1, 0, 0, 0, 0, 0, 0, 0, 0, 0, 0, 0, 0, 0, 0, 0, 0, 0, 0, 2, 2, 1, 0, 0, 0],
  [0, 0, 0, 0, 0, 0, 0, 0, 0, 0, 0, 0, 0, 0, 1, 0, 0, 0, 0, 0, 0, 0, 0, 0, 0, 0, 0, 0, 0, 0, 0, 0, 2, 0, 2, 2, 1, 0],
  [0, 0, 0, 0, 0, 0, 0, 0, 0, 0, 0, 0, 0, 0, 0, 1, 0, 0, 0, 0, 0, 0, 0, 0, 0, 0, 0, 0, 0, 0, 0, 0, 0, 2, 0, 0, 1, 0],
  [0, 0, 0, 0, 0, 0, 0, 0, 0, 0, 0, 0, 0, 0, 0, 0, 1, 0, 0, 0, 0, 0, 0, 0, 0, 0, 0, 0, 0, 0, 0, 0, 1, 1, 0, 1, 2, 0],
  [0, 0, 0, 0, 0, 0, 0, 0, 0, 0, 0, 0, 0, 0, 0, 0, 0, 1, 0, 0, 0, 0, 0, 0, 0, 0, 0, 0, 0, 0, 0, 0, 1, 2, 0, 1, 1, 0],
  [0, 0, 0, 0, 0, 0, 0, 0, 0, 0, 0, 0, 0, 0, 0, 0, 0, 0, 1, 0, 0, 0, 0, 0, 0, 0, 0, 0, 0, 0, 0, 0, 0, 0, 0, 0, 0, 0],
  [0, 0, 0, 0, 0, 0, 0, 0, 0, 0, 0, 0, 0, 0, 0, 0, 0, 0, 0, 1, 0, 0, 0, 0, 0, 0, 0, 0, 0, 0, 0, 0, 1, 1, 0, 1, 2, 0],
  [0, 0, 0, 0, 0, 0, 0, 0, 0, 0, 0, 0, 0, 0, 0, 0, 0, 0, 0, 0, 1, 0, 0, 0, 0, 0, 0, 0, 0, 0, 0, 0, 1, 2, 0, 1, 1, 0],
  [0, 0, 0, 0, 0, 0, 0, 0, 0, 0, 0, 0, 0, 0, 0, 0, 0, 0, 0, 0, 0, 1, 0, 0, 0, 0, 0, 0, 0, 0, 0, 0, 0, 1, 0, 0, 2, 0],
  [0, 0, 0, 0, 0, 0, 0, 0, 0, 0, 0, 0, 0, 0, 0, 0, 0, 0, 0, 0, 0, 0, 1, 0, 0, 0, 0, 0, 0, 0, 0, 0, 0, 2, 0, 1, 0, 0],
  [0, 0, 0, 0, 0, 0, 0, 0, 0, 0, 0, 0, 0, 0, 0, 0, 0, 0, 0, 0, 0, 0, 0, 1, 0, 0, 0, 0, 0, 0, 0, 0, 0, 1, 2, 2, 0, 0],
  [0, 0, 0, 0, 0, 0, 0, 0, 0, 0, 0, 0, 0, 0, 0, 0, 0, 0, 0, 0, 0, 0, 0, 0, 1, 0, 0, 0, 0, 0, 0, 0, 1, 2, 0, 1, 0, 0],
  [0, 0, 0, 0, 0, 0, 0, 0, 0, 0, 0, 0, 0, 0, 0, 0, 0, 0, 0, 0, 0, 0, 0, 0, 0, 1, 0, 0, 0, 0, 0, 0, 1, 0, 0, 1, 2, 0],
  [0, 0, 0, 0, 0, 0, 0, 0, 0, 0, 0, 0, 0, 0, 0, 0, 0, 0, 0, 0, 0, 0, 0, 0, 0, 0, 1, 0, 0, 0, 0, 0, 0, 0, 2, 2, 1, 0],
  [0, 0, 0, 0, 0, 0, 0, 0, 0, 0, 0, 0, 0, 0, 0, 0, 0, 0, 0, 0, 0, 0, 0, 0, 0, 0, 0, 1, 0, 0, 0, 0, 0, 0, 1, 0, 2, 0],
  [0, 0, 0, 0, 0, 0, 0, 0, 0, 0, 0, 0, 0, 0, 0, 0, 0, 0, 0, 0, 0, 0, 0, 0, 0, 0, 0, 0, 1, 0, 0, 0, 2, 0, 1, 2, 0, 0],
  [0, 0, 0, 0, 0, 0, 0, 0, 0, 0, 0, 0, 0, 0, 0, 0, 0, 0, 0, 0, 0, 0, 0, 0, 0, 0, 0, 0, 0, 1, 0, 0, 1, 1, 0, 1, 0, 0],
  [0, 0, 0, 0, 0, 0, 0, 0, 0, 0, 0, 0, 0, 0, 0, 0, 0, 0, 0, 0, 0, 0, 0, 0, 0, 0, 0, 0, 0, 0, 1, 0, 2, 0, 1, 0, 0, 0],
  [0, 0, 0, 0, 0, 0, 0, 0, 0, 0, 0, 0, 0, 0, 0, 0, 0, 0, 0, 0, 0, 0, 0, 0, 0, 0, 0, 0, 0, 0, 0, 1, 1, 0, 0, 1, 1, 0],
  [0, 0, 0, 0, 0, 0, 0, 0, 0, 0, 0, 0, 0, 0, 0, 0, 0, 0, 0, 0, 0, 0, 0, 0, 0, 0, 0, 0, 0, 0, 0, 0, 0, 0, 0, 0, 0, 0],
  [0, 0, 0, 0, 0, 0, 0, 0, 0, 0, 0, 0, 0, 0, 0, 0, 0, 0, 0, 0, 0, 0, 0, 0, 0, 0, 0, 0, 0, 0, 0, 0, 0, 0, 0, 0, 0, 0],
  [0, 0, 0, 0, 0, 0, 0, 0, 0, 0, 0, 0, 0, 0, 0, 0, 0, 0, 0, 0, 0, 0, 0, 0, 0, 0, 0, 0, 0, 0, 0, 0, 0, 0, 0, 0, 0, 0],
  [0, 0, 0, 0, 0, 0, 0, 0, 0, 0, 0, 0, 0, 0, 0, 0, 0, 0, 0, 0, 0, 0, 0, 0, 0, 0, 0, 0, 0, 0, 0, 0, 0, 0, 0, 0, 0, 0],
  [0, 0, 0, 0, 0, 0, 0, 0, 0, 0, 0, 0, 0, 0, 0, 0, 0, 0, 0, 0, 0, 0, 0, 0, 0, 0, 0, 0, 0, 0, 0, 0, 0, 0, 0, 0, 0, 0]]

/-- The mod-2 target column of the single-unlit hard board. -/
def b2badC : List Int := [1, 0, 0, 0, 0, 0, 0, 0, 0, 0, 0, 0, 0, 0, 0, 0, 0, 0, 0, 0, 0, 0, 0, 0, 0, 0, 0, 0, 0, 0, 0, 0, 0, 0, 0, 0, 0]

/-- The eliminated matrix of the hexagon system mod 2 with target
`b2badC` (checked by `elim2_bad`); its consistency check fails. -/
def F2bC : List (List Int) :=
  [[1, 0, 0, 0, 0, 0, 0, 0, 0, 0, 0, 0, 0, 0, 0, 0, 0, 0, 0, 0, 0, 0, 0, 0, 0, 0, 0, 0, 0, 0, 0, 0, 0, 0, 0, 0, 1,   0],
  [0, 1, 0, 0, 0, 0, 0, 0, 0, 0, 0, 0, 0, 0, 0, 0, 0, 0, 0, 0, 0, 0, 0, 0, 0, 0, 0, 0, 0, 0, 0, 0, 0, 1, 1, 0, 1, 1],
  [0, 0, 1, 0, 0, 0, 0, 0, 0, 0, 0, 0, 0, 0, 0, 0, 0, 0, 0, 0, 0, 0, 0, 0, 0, 0, 0, 0, 0, 0, 0, 0, 0, 1, 0, 1, 1, 0],
  [0, 0, 0, 1, 0, 0, 0, 0, 0, 0, 0, 0, 0, 0, 0, 0, 0, 0, 0, 0, 0, 0, 0, 0, 0, 0, 0, 0, 0, 0, 0, 0, 0, 1, 0, 0, 0, 1],
  [0, 0, 0, 0, 1, 0, 0, 0, 0, 0, 0, 0, 0, 0, 0, 0, 0, 0, 0, 0, 0, 0, 0, 0, 0, 0, 0, 0, 0, 0, 0, 0, 0, 1, 1, 0, 1, 0],
  [0, 0, 0, 0, 0, 1, 0, 0, 0, 0, 0, 0, 0, 0, 0, 0, 0, 0, 0, 0, 0, 0, 0, 0, 0, 0, 0, 0, 0, 0, 0, 0, 0, 0, 0, 0, 1, 0],
  [0, 0, 0, 0, 0, 0, 1, 0, 0, 0, 0, 0, 0, 0, 0, 0, 0, 0, 0, 0, 0, 0, 0, 0, 0, 0, 0, 0, 0, 0, 0, 0, 0, 0, 1, 1, 0, 1],
  [0, 0, 0, 0, 0, 0, 0, 1, 0, 0, 0, 0, 0, 0, 0, 0, 0, 0, 0, 0, 0, 0, 0, 0, 0, 0, 0, 0, 0, 0, 0, 0, 0, 1, 0, 0, 0, 1],
  [0, 0, 0, 0, 0, 0, 0, 0, 1, 0, 0, 0, 0, 0, 0, 0, 0, 0, 0, 0, 0, 0, 0, 0, 0, 0, 0, 0, 0, 0, 0, 0, 0, 1, 0, 1, 1, 0],
  [0, 0, 0, 0, 0, 0, 0, 0, 0, 1, 0, 0, 0, 0, 0, 0, 0, 0, 0, 0, 0, 0, 0, 0, 0, 0, 0, 0, 0, 0, 0, 0, 0, 1, 0, 1, 0, 0],
  [0, 0, 0, 0, 0, 0, 0, 0, 0, 0, 1, 0, 0, 0, 0, 0, 0, 0, 0, 0, 0, 0, 0, 0, 0, 0, 0, 0, 0, 0, 0, 0, 0, 0, 1, 1, 1, 0],
  [0, 0, 0, 0, 0, 0, 0, 0, 0, 0, 0, 1, 0, 0, 0, 0, 0, 0, 0, 0, 0, 0, 0, 0, 0, 0, 0, 0, 0, 0, 0, 0, 0, 0, 0, 0, 1, 0],
  [0, 0, 0, 0, 0, 0, 0, 0, 0, 0, 0, 0, 1, 0, 0, 0, 0, 0, 0, 0, 0, 0, 0, 0, 0, 0, 0, 0, 0, 0, 0, 0, 0, 1, 0, 0, 0, 1],
  [0, 0, 0, 0, 0, 0, 0, 0, 0, 0, 0, 0, 0, 1, 0, 0, 0, 0, 0, 0, 0, 0, 0, 0, 0, 0, 0, 0, 0, 0, 0, 0, 0, 1, 1, 1, 0, 0],
  [0, 0, 0, 0, 0, 0, 0, 0, 0, 0, 0, 0, 0, 0, 1, 0, 0, 0, 0, 0, 0, 0, 0, 0, 0, 0, 0, 0, 0, 0, 0, 0, 0, 0, 1, 0, 1, 0],
  [0, 0, 0, 0, 0, 0, 0, 0, 0, 0, 0, 0, 0, 0, 0, 1, 0, 0, 0, 0, 0, 0, 0, 0, 0, 0, 0, 0, 0, 0, 0, 0, 0, 1, 0, 0, 1, 0],
  [0, 0, 0, 0, 0, 0, 0, 0, 0, 0, 0, 0, 0, 0, 0, 0, 1, 0, 0, 0, 0, 0, 0, 0, 0, 0, 0, 0, 0, 0, 0, 0, 0, 1, 0, 0, 1, 0],
  [0, 0, 0, 0, 0, 0, 0, 0, 0, 0, 0, 0, 0, 0, 0, 0, 0, 1, 0, 0, 0, 0, 0, 0, 0, 0, 0, 0, 0, 0, 0, 0, 0, 1, 0, 0, 1, 0],
  [0, 0, 0, 0, 0, 0, 0, 0, 0, 0, 0, 0, 0, 0, 0, 0, 0, 0, 1, 0, 0, 0, 0, 0, 0, 0, 0, 0, 0, 0, 0, 0, 0, 0, 0, 0, 0, 0],
  [0, 0, 0, 0, 0, 0, 0, 0, 0, 0, 0, 0, 0, 0, 0, 0, 0, 0, 0, 1, 0, 0, 0, 0, 0, 0, 0, 0, 0, 0, 0, 0, 0, 1, 0, 0, 1, 1],
  [0, 0, 0, 0, 0, 0, 0, 0, 0, 0, 0, 0, 0, 0, 0, 0, 0, 0, 0, 0, 1, 0, 0, 0, 0, 0, 0, 0, 0, 0, 0, 0, 0, 1, 0, 0, 1, 1],
  [0, 0, 0, 0, 0, 0, 0, 0, 0, 0, 0, 0, 0, 0, 0, 0, 0, 0, 0, 0, 0, 1, 0, 0, 0, 0, 0, 0, 0, 0, 0, 0, 0, 1, 0, 0, 1, 1],
  [0, 0, 0, 0, 0, 0, 0, 0, 0, 0, 0, 0, 0, 0, 0, 0, 0, 0, 0, 0, 0, 0, 1, 0, 0, 0, 0, 0, 0, 0, 0, 0, 0, 1, 0, 1, 0, 0],
  [0, 0, 0, 0, 0, 0, 0, 0, 0, 0, 0, 0, 0, 0, 0, 0, 0, 0, 0, 0, 0, 0, 0, 1, 0, 0, 0, 0, 0, 0, 0, 0, 0, 1, 1, 1, 0, 0],
  [0, 0, 0, 0, 0, 0, 0, 0, 0, 0, 0, 0, 0, 0, 0, 0, 0, 0, 0, 0, 0, 0, 0, 0, 1, 0, 0, 0, 0, 0, 0, 0, 0, 1, 0, 0, 0, 0],
  [0, 0, 0, 0, 0, 0, 0, 0, 0, 0, 0, 0, 0, 0, 0, 0, 0, 0, 0, 0, 0, 0, 0, 0, 0, 1, 0, 0, 0, 0, 0, 0, 0, 0, 0, 0, 1, 0],
  [0, 0, 0, 0, 0, 0, 0, 0, 0, 0, 0, 0, 0, 0, 0, 0, 0, 0, 0, 0, 0, 0, 0, 0, 0, 0, 1, 0, 0, 0, 0, 0, 0, 0, 1, 1, 1, 1],
  [0, 0, 0, 0, 0, 0, 0, 0, 0, 0, 0, 0, 0, 0, 0, 0, 0, 0, 0, 0, 0, 0, 0, 0, 0, 0, 0, 1, 0, 0, 0, 0, 0, 0, 1, 0, 1, 0],
  [0, 0, 0, 0, 0, 0, 0, 0, 0, 0, 0, 0, 0, 0, 0, 0, 0, 0, 0, 0, 0, 0, 0, 0, 0, 0, 0, 0, 1, 0, 0, 0, 0, 0, 1, 0, 0, 0],
  [0, 0, 0, 0, 0, 0, 0, 0, 0, 0, 0, 0, 0, 0, 0, 0, 0, 0, 0, 0, 0, 0, 0, 0, 0, 0, 0, 0, 0, 1, 0, 0, 0, 1, 0, 0, 0, 0],
  [0, 0, 0, 0, 0, 0, 0, 0, 0, 0, 0, 0, 0, 0, 0, 0, 0, 0, 0, 0, 0, 0, 0, 0, 0, 0, 0, 0, 0, 0, 1, 0, 0, 0, 1, 1, 0, 0],
  [0, 0, 0, 0, 0, 0, 0, 0, 0, 0, 0, 0, 0, 0, 0, 0, 0, 0, 0, 0, 0, 0, 0, 0, 0, 0, 0, 0, 0, 0, 0, 1, 0, 0, 0, 0, 1, 0],
  [0, 0, 0, 0, 0, 0, 0, 0, 0, 0, 0, 0, 0, 0, 0, 0, 0, 0, 0, 0, 0, 0, 0, 0, 0, 0, 0, 0, 0, 0, 0, 0, 1, 0, 0, 1, 0, 1],
  [0, 0, 0, 0, 0, 0, 0, 0, 0, 0, 0, 0, 0, 0, 0, 0, 0, 0, 0, 0, 0, 0, 0, 0, 0, 0, 0, 0, 0, 0, 0, 0, 0, 0, 0, 0, 0, 0],
  [0, 0, 0, 0, 0, 0, 0, 0, 0, 0, 0, 0, 0, 0, 0, 0, 0, 0, 0, 0, 0, 0, 0, 0, 0, 0, 0, 0, 0, 0, 0, 0, 0, 0, 0, 0, 0, 0],
  [0, 0, 0, 0, 0, 0, 0, 0, 0, 0, 0, 0, 0, 0, 0, 0, 0, 0, 0, 0, 0, 0, 0, 0, 0, 0, 0, 0, 0, 0, 0, 0, 0, 0, 0, 0, 0, 0],
  [0, 0, 0, 0, 0, 0, 0, 0, 0, 0, 0, 0, 0, 0, 0, 0, 0, 0, 0, 0, 0, 0, 0, 0, 0, 0, 0, 0, 0, 0, 0, 0, 0, 0, 0, 0, 0, 1]]

/-! ## Basic access lemmas -/

/-! ## Concrete evaluations of the hexagon system

The 37-tile computations are verified against written-out literal values
once each; everything downstream rewrites to the literals instead of
re-evaluating the builders. -/

set_option maxRecDepth 1000000 in
set_option maxHeartbeats 4000000 in
lemma hexAdjMap3_eq : hexAdjMap 3 = adjLitC := by decide

lemma hexAdjFun_eq :
    (fun k => (hexAdjMap 3).getD k []) = (fun k => adjLitC.getD k []) := by
  funext k
  rw [hexAdjMap3_eq]

set_option maxRecDepth 1000000 in
set_option maxHeartbeats 4000000 in
lemma buildA_hex_eq :
    buildA 37 (fun k => (hexAdjMap 3).getD k []) = AhexC := by
  rw [hexAdjFun_eq]
  decide

set_option maxRecDepth 1000000 in
set_option maxHeartbeats 8000000 in
lemma elim2_zero :
    elimLoop 2 37 (augment AhexC (List.replicate 37 0)) = some F2C := by
  decide

set_option maxRecDepth 1000000 in
set_option maxHeartbeats 8000000 in
lemma elim3_zero :
    elimLoop 3 37 (augment AhexC (List.replicate 37 0)) = some F3C := by
  decide

set_option maxRecDepth 1000000 in
set_option maxHeartbeats 8000000 in
lemma elim2_bad :
    elimLoop 2 37 (augment AhexC b2badC) = some F2bC := by
  decide

set_option maxRecDepth 400000 in
set_option maxHeartbeats 1000000 in
lemma gaussCore2_zero :
    gaussCore 2 37 (augment AhexC (List.replicate 37 0)) =
      some (List.replicate 37 0) := by
  unfold gaussCore
  rw [elim2_zero]
  decide

set_option maxRecDepth 400000 in
set_option maxHeartbeats 1000000 in
lemma gaussCore3_zero :
    gaussCore 3 37 (augment AhexC (List.replicate 37 0)) =
      some (List.replicate 37 0) := by
  unfold gaussCore
  rw [elim3_zero]
  decide

set_option maxRecDepth 400000 in
set_option maxHeartbeats 1000000 in
lemma gaussCore2_bad :
    gaussCore 2 37 (augment AhexC b2badC) = none := by
  unfold gaussCore
  rw [elim2_bad]
  decide


lemma getD_range_map {α : Type} (f : Nat → α) (n j : Nat) (d : α) :
    ((List.range n).map f).getD j d = if j < n then f j else d := by
  by_cases h : j < n
  · rw [List.getD_eq_getElem?_getD, List.getElem?_map, List.getElem?_range h]
    simp [h]
  · rw [List.getD_eq_getElem?_getD, List.getElem?_map]
    rw [List.getElem?_eq_none (by simpa using Nat.le_of_not_lt h)]
    simp [h]

lemma getD_take_lt (row : List Int) {k n : Nat} (h : k < n) :
    (row.take n).getD k 0 = row.getD k 0 := by
  rw [List.getD_eq_getElem?_getD, List.getD_eq_getElem?_getD,
    List.getElem?_take, if_pos h]

lemma getD_map_emod (row : List Int) (k : Nat) (f : Int → Int)
    (hf : f 0 = 0) : (row.map f).getD k 0 = f (row.getD k 0) := by
  rw [List.getD_eq_getElem?_getD, List.getElem?_map, List.getD_eq_getElem?_getD]
  cases row[k]? <;> simp [hf]

lemma modInv_spec {p m inv : Int} (h : modInv p m = some inv) :
    2 ≤ m ∧ p * inv % m = 1 := by
  have hpe : p * inv % m = 1 := by simpa using List.find?_some h
  refine ⟨?_, hpe⟩
  have hmem : inv ∈ (List.range m.toNat).map (Int.ofNat) :=
    List.mem_of_find?_eq_some h
  rcases List.mem_map.1 hmem with ⟨k, hk, rfl⟩
  have hk' : k < m.toNat := List.mem_range.1 hk
  have hm0 : 0 < m := by
    by_contra h0
    rw [Int.toNat_of_nonpos (by omega)] at hk'
    omega
  have hm1 : m ≠ 1 := by
    intro h1
    rw [h1, Int.emod_one] at hpe
    omega
  omega

lemma gcd_ne_one_modInv {p m : Int} (h : Int.gcd p m ≠ 1) : modInv p m = none :=
  by
  rcases hfind : modInv p m with _ | inv
  · rfl
  exfalso
  have hpe := (modInv_spec hfind).2
  have hmd : m ∣ p * inv - 1 := Int.dvd_sub_of_emod_eq hpe
  have h1 : (Int.gcd p m : Int) ∣ p * inv := Dvd.dvd.mul_right Int.gcd_dvd_left inv
  have h2 : (Int.gcd p m : Int) ∣ p * inv - 1 := dvd_trans Int.gcd_dvd_right hmd
  have h3 : (Int.gcd p m : Int) ∣ 1 := by
    have := dvd_sub h1 h2
    simpa using this
  have h4 : p.gcd m ∣ 1 := by exact_mod_cast h3
  exact h (Nat.dvd_one.mp h4)

/-! ## Row swap -/

lemma getD_swapRows (Ab : List (List Int)) (i r n j : Nat) :
    (swapRows Ab i r n).getD j [] =
      if j < n then
        (if j = i then Ab.getD r []
         else if j = r then Ab.getD i [] else Ab.getD j [])
      else [] := by
  unfold swapRows
  rw [getD_range_map]

lemma getD_swapRows_at_r {Ab : List (List Int)} {i r n : Nat} (hr : r < n) :
    (swapRows Ab i r n).getD r [] = Ab.getD i [] := by
  rw [getD_swapRows, if_pos hr]
  by_cases hri : r = i
  · rw [if_pos hri, hri]
  · rw [if_neg hri, if_pos rfl]

lemma getD_swapRows_at_i {Ab : List (List Int)} {i r n : Nat} (hi : i < n) :
    (swapRows Ab i r n).getD i [] = Ab.getD r [] := by
  rw [getD_swapRows, if_pos hi, if_pos rfl]

lemma getD_swapRows_other {Ab : List (List Int)} {i r n j : Nat} (hj : j < n)
    (hji : j ≠ i) (hjr : j ≠ r) :
    (swapRows Ab i r n).getD j [] = Ab.getD j [] := by
  rw [getD_swapRows, if_pos hj, if_neg hji, if_neg hjr]

lemma length_swapRows (Ab : List (List Int)) (i r n : Nat) :
    (swapRows Ab i r n).length = n := by
  simp [swapRows]

lemma WFA_swapRows {Ab : List (List Int)} {i r n : Nat} (h : WFA n Ab)
    (hi : i < n) (hr : r < n) : WFA n (swapRows Ab i r n) := by
  refine ⟨length_swapRows Ab i r n, fun j hj => ?_⟩
  rw [getD_swapRows, if_pos hj]
  split_ifs
  · exact h.2 r hr
  · exact h.2 i hi
  · exact h.2 j hj

lemma satSys_swapRows {m : Int} {Ab : List (List Int)} {i r n : Nat}
    {x : List Int} (hi : i < n) (hr : r < n) :
    satSys m n (swapRows Ab i r n) x ↔ satSys m n Ab x := by
  constructor
  · intro h s hs
    by_cases hsi : s = i
    · subst hsi
      have hh := h r hr
      rwa [getD_swapRows_at_r hr] at hh
    by_cases hsr : s = r
    · subst hsr
      have hh := h i hi
      rwa [getD_swapRows_at_i hi] at hh
    · have hh := h s hs
      rwa [getD_swapRows_other hs hsi hsr] at hh
  · intro h s hs
    by_cases hsi : s = i
    · subst hsi
      rw [getD_swapRows_at_i hi]
      exact h r hr
    by_cases hsr : s = r
    · subst hsr
      rw [getD_swapRows_at_r hr]
      exact h i hi
    · rw [getD_swapRows_other hs hsi hsr]
      exact h s hs

/-! ## Modular sums -/

lemma modeq_sum {m : Int} {s : Finset Nat} {f g : Nat → Int}
    (h : ∀ i ∈ s, f i ≡ g i [ZMOD m]) :
    (∑ i ∈ s, f i) ≡ (∑ i ∈ s, g i) [ZMOD m] := by
  classical
  induction s using Finset.induction_on with
  | empty => simp [Int.ModEq.refl]
  | insert hnot ih =>
    rename_i a t
    rw [Finset.sum_insert hnot, Finset.sum_insert hnot]
    exact Int.ModEq.add (h a (Finset.mem_insert_self a t))
      (ih (fun i hi => h i (Finset.mem_insert_of_mem hi)))

lemma emod_modeq (a m : Int) : a % m ≡ a [ZMOD m] := by
  unfold Int.ModEq
  exact Int.emod_emod_of_dvd a dvd_rfl

lemma modeq_cancel_unit {m p inv a b : Int} (hm : 2 ≤ m)
    (hp : p * inv % m = 1) : (inv * a ≡ inv * b [ZMOD m]) ↔ a ≡ b [ZMOD m] := by
  have h1 : p * inv ≡ 1 [ZMOD m] := by
    unfold Int.ModEq
    rw [hp, Int.emod_eq_of_lt (by omega) (by omega)]
  constructor
  · intro h
    calc a = 1 * a := (one_mul a).symm
    _ ≡ p * inv * a [ZMOD m] := (h1.mul_right a).symm
    _ = p * (inv * a) := by ring
    _ ≡ p * (inv * b) [ZMOD m] := h.mul_left p
    _ = p * inv * b := by ring
    _ ≡ 1 * b [ZMOD m] := h1.mul_right b
    _ = b := one_mul b
  · exact fun h => h.mul_left inv

/-! ## Scaling and elimination rows -/

lemma getD_scaleRow (row : List Int) (c m : Int) (k : Nat) :
    (scaleRow row c m).getD k 0 = row.getD k 0 * c % m := by
  unfold scaleRow
  rw [getD_map_emod row k _ (by simp)]

lemma length_scaleRow (row : List Int) (c m : Int) :
    (scaleRow row c m).length = row.length := by
  simp [scaleRow]

lemma length_elimRow (u v : List Int) (c m : Int) :
    (elimRow u v c m).length = min u.length v.length := by
  simp [elimRow]

lemma getD_elimRow {u v : List Int} (c m : Int) {k : Nat}
    (hku : k < u.length) (hkv : k < v.length) :
    (elimRow u v c m).getD k 0 = (u.getD k 0 - c * v.getD k 0) % m := by
  unfold elimRow
  rw [List.getD_eq_getElem?_getD, List.getElem?_zipWith,
    List.getElem?_eq_getElem hku, List.getElem?_eq_getElem hkv]
  simp [List.getD_eq_getElem?_getD, List.getElem?_eq_getElem, hku, hkv]

lemma rowSat_scaleRow_iff {m : Int} {n : Nat} {row x : List Int} {p inv : Int}
    (hm : 2 ≤ m) (hp : p * inv % m = 1) :
    rowSat m n (scaleRow row inv m) x ↔ rowSat m n row x := by
  have hS : SDot n (scaleRow row inv m) x ≡ inv * SDot n row x [ZMOD m] := by
    unfold SDot
    have h1 : (∑ k ∈ Finset.range n, (scaleRow row inv m).getD k 0 * x.getD k 0)
        ≡ (∑ k ∈ Finset.range n, row.getD k 0 * inv * x.getD k 0) [ZMOD m] := by
      refine modeq_sum (fun k _ => ?_)
      rw [getD_scaleRow]
      exact (emod_modeq _ m).mul_right _
    have h2 : (∑ k ∈ Finset.range n, row.getD k 0 * inv * x.getD k 0)
        = inv * ∑ k ∈ Finset.range n, row.getD k 0 * x.getD k 0 := by
      rw [Finset.mul_sum]
      exact Finset.sum_congr rfl (fun k _ => by ring)
    rw [h2] at h1
    exact h1
  have ht : (scaleRow row inv m).getD n 0 ≡ inv * row.getD n 0 [ZMOD m] := by
    rw [getD_scaleRow, mul_comm inv (row.getD n 0)]
    exact emod_modeq _ m
  unfold rowSat
  constructor
  · intro h
    exact (modeq_cancel_unit hm hp).mp ((hS.symm.trans h).trans ht)
  · intro h
    exact (hS.trans ((modeq_cancel_unit hm hp).mpr h)).trans ht.symm

lemma rowSat_elimRow_iff {m : Int} {n : Nat} {u v x : List Int} {c : Int}
    (hu : u.length = n + 1) (hv : v.length = n + 1)
    (hpiv : rowSat m n v x) :
    rowSat m n (elimRow u v c m) x ↔ rowSat m n u x := by
  have hS : SDot n (elimRow u v c m) x ≡
      SDot n u x - c * SDot n v x [ZMOD m] := by
    unfold SDot
    have h1 : (∑ k ∈ Finset.range n, (elimRow u v c m).getD k 0 * x.getD k 0)
        ≡ (∑ k ∈ Finset.range n,
            (u.getD k 0 - c * v.getD k 0) * x.getD k 0) [ZMOD m] := by
      refine modeq_sum (fun k hk => ?_)
      have hk' := Finset.mem_range.1 hk
      rw [getD_elimRow c m (by omega) (by omega)]
      exact (emod_modeq _ m).mul_right _
    have h2 : (∑ k ∈ Finset.range n,
          (u.getD k 0 - c * v.getD k 0) * x.getD k 0)
        = (∑ k ∈ Finset.range n, u.getD k 0 * x.getD k 0) -
            c * ∑ k ∈ Finset.range n, v.getD k 0 * x.getD k 0 := by
      rw [Finset.mul_sum, ← Finset.sum_sub_distrib]
      exact Finset.sum_congr rfl (fun k _ => by ring)
    rw [h2] at h1
    exact h1
  have ht : (elimRow u v c m).getD n 0 =
      (u.getD n 0 - c * v.getD n 0) % m :=
    getD_elimRow c m (by omega) (by omega)
  unfold rowSat
  constructor
  · intro h
    have h3 : SDot n u x - c * SDot n v x ≡
        u.getD n 0 - c * v.getD n 0 [ZMOD m] :=
      hS.symm.trans (h.trans (by rw [ht]; exact emod_modeq _ _))
    have h4 := h3.add (hpiv.mul_left c)
    simpa using h4
  · intro h
    have h4 := h.sub (hpiv.mul_left c)
    refine hS.trans (h4.trans ?_)
    rw [ht]
    exact (emod_modeq _ _).symm

/-! ## The column step -/

lemma pivotScan_some_bounds {Ab : List (List Int)} {i n r : Nat}
    (h : pivotScan Ab i n = some r) : i ≤ r ∧ r < n := by
  have hmem := List.mem_of_find?_eq_some h
  rcases List.mem_range'.1 hmem with ⟨k, hk, rfl⟩
  omega

lemma colStep_some_sat {m : Int} {n : Nat} {Ab Ab' : List (List Int)} {i : Nat}
    (hstep : colStep m n Ab i = some Ab') (hWF : WFA n Ab) (hin : i < n) :
    WFA n Ab' ∧ ∀ x, (satSys m n Ab' x ↔ satSys m n Ab x) := by
  unfold colStep at hstep
  rcases hscan : pivotScan Ab i n with _ | r <;> rw [hscan] at hstep <;>
    dsimp only at hstep
  · cases Option.some_injective _ hstep
    exact ⟨hWF, fun x => Iff.rfl⟩
  rcases pivotScan_some_bounds hscan with ⟨hir, hrn⟩
  set Ab1 := swapRows Ab i r n with hAb1
  rcases hinv : modInv (get2 Ab1 i i) m with _ | inv <;> rw [hinv] at hstep <;>
    dsimp only at hstep
  · exact absurd hstep (by simp)
  rcases modInv_spec hinv with ⟨hm2, hp⟩
  have hWF1 : WFA n Ab1 := WFA_swapRows hWF hin hrn
  set piv := scaleRow (Ab1.getD i []) inv m with hpivdef
  have hAb' : Ab' = (List.range n).map (fun j =>
      if j = i then piv else elimRow (Ab1.getD j []) piv (get2 Ab1 j i) m) :=
    (Option.some_injective _ hstep).symm
  have hget : ∀ j, j < n → Ab'.getD j [] =
      if j = i then piv else elimRow (Ab1.getD j []) piv (get2 Ab1 j i) m := by
    intro j hj
    rw [hAb', getD_range_map, if_pos hj]
  have hpivlen : piv.length = n + 1 := by
    rw [hpivdef, length_scaleRow]
    exact hWF1.2 i hin
  have hWF' : WFA n Ab' := by
    refine ⟨by simp [hAb'], fun j hj => ?_⟩
    rw [hget j hj]
    split_ifs
    · exact hpivlen
    · rw [length_elimRow, hWF1.2 j hj, hpivlen]
      simp
  refine ⟨hWF', fun x => ?_⟩
  have hscale : rowSat m n piv x ↔ rowSat m n (Ab1.getD i []) x :=
    rowSat_scaleRow_iff hm2 hp
  have hmain : satSys m n Ab' x ↔ satSys m n Ab1 x := by
    constructor
    · intro h s hs
      have hpiv : rowSat m n piv x := by
        have hh := h i hin
        rwa [hget i hin, if_pos rfl] at hh
      by_cases hsi : s = i
      · subst hsi
        exact hscale.mp hpiv
      · have hh := h s hs
        rw [hget s hs, if_neg hsi] at hh
        exact (rowSat_elimRow_iff (hWF1.2 s hs) hpivlen hpiv).mp hh
    · intro h s hs
      have hpiv : rowSat m n piv x := hscale.mpr (h i hin)
      rw [hget s hs]
      by_cases hsi : s = i
      · rw [if_pos hsi]
        exact hpiv
      · rw [if_neg hsi]
        exact (rowSat_elimRow_iff (hWF1.2 s hs) hpivlen hpiv).mpr (h s hs)
  exact hmain.trans (satSys_swapRows hin hrn)

/-! ## The elimination loop -/

lemma foldl_colStep_sat {m : Int} {n : Nat} :
    ∀ (L : List Nat), (∀ i ∈ L, i < n) → ∀ {Ab F : List (List Int)},
      L.foldlM (fun M i => colStep m n M i) Ab = some F → WFA n Ab →
      WFA n F ∧ ∀ x, (satSys m n F x ↔ satSys m n Ab x) := by
  intro L
  induction L with
  | nil =>
    intro _ Ab F hfold hWF
    rw [List.foldlM_nil] at hfold
    cases Option.some_injective _ hfold
    exact ⟨hWF, fun x => Iff.rfl⟩
  | cons i L ih =>
    intro hL Ab F hfold hWF
    rw [List.foldlM_cons] at hfold
    rcases Option.bind_eq_some.1 hfold with ⟨mid, hmid, hrest⟩
    have h1 := colStep_some_sat hmid hWF (hL i (List.mem_cons_self i L))
    have h2 := ih (fun j hj => hL j (List.mem_cons_of_mem i hj)) hrest h1.1
    exact ⟨h2.1, fun x => (h2.2 x).trans (h1.2 x)⟩

lemma elimLoop_sat {m : Int} {n : Nat} {Ab F : List (List Int)}
    (h : elimLoop m n Ab = some F) (hWF : WFA n Ab) :
    WFA n F ∧ ∀ x, (satSys m n F x ↔ satSys m n Ab x) :=
  foldl_colStep_sat (List.range n) (fun _ hi => List.mem_range.1 hi) h hWF

/-! ## The coefficient part evolves independently of the target column -/

lemma getD_takeN (M : List (List Int)) (n j : Nat) :
    (takeN n M).getD j [] = (M.getD j []).take n := by
  unfold takeN
  rw [List.getD_eq_getElem?_getD, List.getElem?_map, List.getD_eq_getElem?_getD]
  cases M[j]? <;> simp

lemma get2_of_takeN {Ab Ab' : List (List Int)} {n : Nat}
    (hEq : takeN n Ab = takeN n Ab') {k : Nat} (hk : k < n) (r : Nat) :
    get2 Ab r k = get2 Ab' r k := by
  unfold get2
  rw [← getD_take_lt (Ab.getD r []) hk, ← getD_take_lt (Ab'.getD r []) hk,
    ← getD_takeN, ← getD_takeN, hEq]

lemma pivotScan_of_takeN {Ab Ab' : List (List Int)} {n : Nat}
    (hEq : takeN n Ab = takeN n Ab') {i : Nat} (hi : i < n) :
    pivotScan Ab i n = pivotScan Ab' i n := by
  unfold pivotScan
  have hg : ∀ r, get2 Ab r i = get2 Ab' r i := fun r => get2_of_takeN hEq hi r
  simp only [hg]

lemma takeN_swapRows (Ab : List (List Int)) (i r n : Nat) :
    takeN n (swapRows Ab i r n) = swapRows (takeN n Ab) i r n := by
  unfold takeN swapRows
  rw [List.map_map]
  refine List.map_congr_left (fun j _ => ?_)
  simp only [Function.comp_apply]
  split_ifs <;> rw [← getD_takeN] <;> rfl

lemma takeN_scaleRow (row : List Int) (c m : Int) (n : Nat) :
    (scaleRow row c m).take n = scaleRow (row.take n) c m := by
  unfold scaleRow
  rw [List.map_take]

lemma takeN_elimRow (u v : List Int) (c m : Int) (n : Nat) :
    (elimRow u v c m).take n = elimRow (u.take n) (v.take n) c m := by
  unfold elimRow
  rw [List.take_zipWith]

lemma colStep_sim {m : Int} {n : Nat} {Ab Ab' : List (List Int)} {i : Nat}
    (hEq : takeN n Ab = takeN n Ab') (hi : i < n) :
    Option.map (takeN n) (colStep m n Ab i) =
      Option.map (takeN n) (colStep m n Ab' i) := by
  unfold colStep
  rw [pivotScan_of_takeN hEq hi]
  rcases hscan : pivotScan Ab' i n with _ | r <;> dsimp only
  · simpa using hEq
  have hsw : takeN n (swapRows Ab i r n) = takeN n (swapRows Ab' i r n) := by
    rw [takeN_swapRows, takeN_swapRows, hEq]
  rw [get2_of_takeN hsw hi i]
  rcases hinv : modInv (get2 (swapRows Ab' i r n) i i) m with _ | inv <;>
    dsimp only
  simp only [Option.map_some']
  congr 1
  unfold takeN
  rw [List.map_map, List.map_map]
  refine List.map_congr_left (fun j hj => ?_)
  have hj' : j < n := List.mem_range.1 hj
  simp only [Function.comp_apply]
  have hrowEq : ∀ s, (swapRows Ab i r n |>.getD s []).take n =
      (swapRows Ab' i r n |>.getD s []).take n := by
    intro s
    rw [← getD_takeN, ← getD_takeN, hsw]
  split_ifs
  · rw [takeN_scaleRow, takeN_scaleRow, hrowEq i]
  · rw [takeN_elimRow, takeN_elimRow, takeN_scaleRow, takeN_scaleRow,
      hrowEq j, hrowEq i, get2_of_takeN hsw hi j]

lemma foldl_colStep_sim {m : Int} {n : Nat} :
    ∀ (L : List Nat), (∀ i ∈ L, i < n) → ∀ {Ab Ab' : List (List Int)},
      takeN n Ab = takeN n Ab' →
      Option.map (takeN n) (L.foldlM (fun M i => colStep m n M i) Ab) =
        Option.map (takeN n) (L.foldlM (fun M i => colStep m n M i) Ab') := by
  intro L
  induction L with
  | nil =>
    intro _ Ab Ab' hEq
    rw [List.foldlM_nil, List.foldlM_nil]
    simpa using hEq
  | cons i L ih =>
    intro hL Ab Ab' hEq
    rw [List.foldlM_cons, List.foldlM_cons]
    have hstep := colStep_sim (m := m) hEq (hL i (List.mem_cons_self i L))
    rcases h1 : colStep m n Ab i with _ | mid <;>
      rcases h2 : colStep m n Ab' i with _ | mid'
    · rfl
    · rw [h1, h2] at hstep
      exact absurd hstep (by simp)
    · rw [h1, h2] at hstep
      exact absurd hstep (by simp)
    · rw [h1, h2] at hstep
      exact ih (fun j hj => hL j (List.mem_cons_of_mem i hj))
        (by simpa using hstep)

lemma elimLoop_sim {m : Int} {n : Nat} {Ab Ab' : List (List Int)}
    (hEq : takeN n Ab = takeN n Ab') :
    Option.map (takeN n) (elimLoop m n Ab) =
      Option.map (takeN n) (elimLoop m n Ab') :=
  foldl_colStep_sim (List.range n) (fun _ hi => List.mem_range.1 hi) hEq

/-! ## Back substitution -/

lemma GOODB_to_GOODP {m : Int} {n : Nat} {F : List (List Int)}
    (h : GOODB m n F = true) : GOODP m n F := by
  unfold GOODB at h
  simp only [List.all_eq_true, List.mem_range] at h
  intro r hr k hk
  have hb := h r hr k hk
  rw [Bool.and_eq_true, Bool.or_eq_true, Bool.or_eq_true, Bool.or_eq_true]
    at hb
  rcases hb with ⟨h1, h2⟩
  constructor
  · intro hkr hdiag
    rcases h1 with (hrk | hne) | hmod
    · exact absurd (beq_iff_eq.mp hrk).symm hkr
    · rw [Bool.not_eq_true'] at hne
      exact absurd hdiag (ne_of_beq_false hne)
    · exact beq_iff_eq.mp hmod
  · intro hne
    rcases h2 with hd | hz
    · exact absurd (beq_iff_eq.mp hd) hne
    · exact beq_iff_eq.mp hz

lemma xList_eq {m : Int} {n : Nat} {F : List (List Int)} (i : Nat)
    (h : i < n) :
    xList m n F i =
      (if get2 F i i == 1 then
        ((F.getD i []).getD n 0 -
          dotL (((F.getD i []).drop (i + 1)).take (n - (i + 1)))
            (xList m n F (i + 1))) % m
       else 0) :: xList m n F (i + 1) := by
  rw [xList, dif_pos h]

lemma xList_stop {m : Int} {n : Nat} {F : List (List Int)} (i : Nat)
    (h : ¬ i < n) : xList m n F i = [] := by
  rw [xList, dif_neg h]

/-- `dotL` as an indexed sum. -/
lemma dotL_eq_sum :
    ∀ (u v : List Int), dotL u v =
      ∑ j ∈ Finset.range (min u.length v.length), u.getD j 0 * v.getD j 0 := by
  intro u
  induction u with
  | nil => intro v; simp [dotL]
  | cons a u ih =>
    intro v
    cases v with
    | nil => simp [dotL]
    | cons b v =>
      have hd : dotL (a :: u) (b :: v) = a * b + dotL u v := by
        simp [dotL]
      rw [hd, ih v]
      have hlen : min (a :: u).length (b :: v).length =
          min u.length v.length + 1 := by
        simp [Nat.succ_min_succ]
      rw [hlen, Finset.sum_range_succ']
      simp [add_comm]


lemma xList_length {m : Int} {n : Nat} {F : List (List Int)} :
    ∀ (k i : Nat), n - i = k → (xList m n F i).length = n - i := by
  intro k
  induction k with
  | zero =>
    intro i hi
    rw [xList_stop i (by omega), hi]
    rfl
  | succ k ih =>
    intro i hi
    rw [xList_eq i (by omega)]
    simp only [List.length_cons, ih (i + 1) (by omega)]
    omega

lemma xList_getD {m : Int} {n : Nat} {F : List (List Int)} :
    ∀ (j i : Nat), (xList m n F i).getD j 0 = xEntry m n F (i + j) := by
  intro j
  induction j with
  | zero =>
    intro i
    rfl
  | succ j ih =>
    intro i
    by_cases h : i < n
    · rw [xList_eq i h, List.getD_cons_succ, ih (i + 1),
        show i + 1 + j = i + (j + 1) by omega]
    · rw [xList_stop i h]
      have h2 : ¬ i + (j + 1) < n := by omega
      simp [xEntry, xList_stop _ h2]

lemma xEntry_lt {m : Int} {n : Nat} {F : List (List Int)} (k : Nat)
    (h : k < n) :
    xEntry m n F k =
      if get2 F k k == 1 then
        ((F.getD k []).getD n 0 -
          dotL (((F.getD k []).drop (k + 1)).take (n - (k + 1)))
            (xList m n F (k + 1))) % m
      else 0 := by
  unfold xEntry
  rw [xList_eq k h]
  rfl

lemma xEntry_range {m : Int} {n : Nat} {F : List (List Int)} (hm : 0 < m)
    (k : Nat) : 0 ≤ xEntry m n F k ∧ xEntry m n F k < m := by
  by_cases h : k < n
  · rw [xEntry_lt k h]
    split_ifs
    · exact ⟨Int.emod_nonneg _ (by omega), Int.emod_lt_of_pos _ hm⟩
    · exact ⟨le_refl 0, hm⟩
  · unfold xEntry
    rw [xList_stop k h]
    exact ⟨le_refl 0, by simpa using hm⟩

lemma backSubGo_xList {m : Int} {n : Nat} {F : List (List Int)} :
    ∀ i : Nat, i ≤ n → backSubGo m n F i (xList m n F i) = xList m n F 0 := by
  intro i
  induction i with
  | zero => intro _; rfl
  | succ i ih =>
    intro hle
    have h : i < n := by omega
    have hstep : backSubGo m n F (i + 1) (xList m n F (i + 1)) =
        backSubGo m n F i (xList m n F i) := by
      conv_rhs => rw [xList_eq i h]
      rfl
    rw [hstep]
    exact ih (by omega)

lemma backSub_eq_xList {m : Int} {n : Nat} {F : List (List Int)} :
    backSub m n F = xList m n F 0 := by
  unfold backSub
  have h : xList m n F n = [] := xList_stop n (by omega)
  rw [← h]
  exact backSubGo_xList n (le_refl n)

lemma xList_len {m : Int} {n : Nat} {F : List (List Int)} (i : Nat) :
    (xList m n F i).length = n - i := xList_length (n - i) i rfl

lemma getD_drop' (row : List Int) (t j : Nat) :
    (row.drop t).getD j 0 = row.getD (t + j) 0 := by
  rw [List.getD_eq_getElem?_getD, List.getD_eq_getElem?_getD,
    List.getElem?_drop]

lemma check_row_zero {n : Nat} {F : List (List Int)}
    (hcheck : checkConsistent n F = true) {r : Nat} (hr : r < n)
    (hF : F.length = n) (hlen : (F.getD r []).length = n + 1)
    (hz : ∀ k < n, (F.getD r []).getD k 0 = 0) :
    (F.getD r []).getD n 0 = 0 := by
  unfold checkConsistent at hcheck
  rw [List.all_eq_true] at hcheck
  have hmem : F.getD r [] ∈ F := by
    rw [List.getD_eq_getElem?_getD, List.getElem?_eq_getElem (by omega)]
    exact List.getElem_mem _
  have hrow := hcheck _ hmem
  have hall : ((F.getD r []).take n).all (· == 0) = true := by
    rw [List.all_eq_true]
    intro v hv
    rcases List.mem_iff_getElem.1 hv with ⟨j, hj, rfl⟩
    have hjn : j < n := by
      have h1 := List.length_take n (F.getD r [])
      omega
    rw [List.getElem_take]
    have h2 : (F.getD r []).getD j 0 = (F.getD r [])[j] := by
      rw [List.getD_eq_getElem?_getD, List.getElem?_eq_getElem (by omega)]
      rfl
    rw [beq_iff_eq, ← h2]
    exact hz j hjn
  rw [hall] at hrow
  simp only [Bool.true_and, Bool.not_not] at hrow
  exact beq_iff_eq.mp hrow

/-- The particular solution built by back substitution satisfies the
final system, provided the final matrix is structurally `GOOD` and the
consistency check passed. -/
theorem backSub_satSys {m : Int} {n : Nat} {F : List (List Int)}
    (hWF : WFA n F) (hGOOD : GOODP m n F)
    (hcheck : checkConsistent n F = true) :
    satSys m n F (backSub m n F) := by
  intro r hr
  have hrowlen : (F.getD r []).length = n + 1 := hWF.2 r hr
  have hx : ∀ k : Nat, (backSub m n F).getD k 0 = xEntry m n F k := by
    intro k
    rw [backSub_eq_xList]
    simpa using xList_getD k 0
  unfold rowSat
  have hSDot : SDot n (F.getD r []) (backSub m n F) =
      ∑ k ∈ Finset.range n, (F.getD r []).getD k 0 * xEntry m n F k := by
    unfold SDot
    exact Finset.sum_congr rfl (fun k _ => by rw [hx k])
  rw [hSDot]
  have hterm : ∀ k, k < n → k ≠ r →
      (F.getD r []).getD k 0 * xEntry m n F k ≡ 0 [ZMOD m] := by
    intro k hkn hkr
    by_cases hk1 : get2 F k k = 1
    · have hmod : get2 F r k % m = 0 :=
        (hGOOD r hr k hkn).1 hkr hk1
      have h0 : get2 F r k ≡ 0 [ZMOD m] := by
        unfold Int.ModEq
        rw [hmod]
        simp
      have h1 := h0.mul_right (xEntry m n F k)
      rw [zero_mul] at h1
      exact h1
    · have he : xEntry m n F k = 0 := by
        rw [xEntry_lt k hkn, if_neg (by simp [hk1])]
      rw [he, mul_zero]
  by_cases hdiag : get2 F r r = 1
  · -- pivot row: the sum collapses to the diagonal term
    have hsum : (∑ k ∈ Finset.range n, (F.getD r []).getD k 0 * xEntry m n F k)
        ≡ xEntry m n F r [ZMOD m] := by
      have h1 : (∑ k ∈ Finset.range n,
            (F.getD r []).getD k 0 * xEntry m n F k)
          ≡ (∑ k ∈ Finset.range n,
              if k = r then (F.getD r []).getD k 0 * xEntry m n F k else 0)
            [ZMOD m] := by
        refine modeq_sum (fun k hk => ?_)
        by_cases hkr : k = r
        · rw [if_pos hkr]
        · rw [if_neg hkr]
          exact hterm k (Finset.mem_range.1 hk) hkr
      have h2 : (∑ k ∈ Finset.range n,
            if k = r then (F.getD r []).getD k 0 * xEntry m n F k else 0)
          = (F.getD r []).getD r 0 * xEntry m n F r := by
        rw [Finset.sum_ite_eq' (Finset.range n)
          r (fun k => (F.getD r []).getD k 0 * xEntry m n F k)]
        rw [if_pos (Finset.mem_range.2 hr)]
      have h3 : (F.getD r []).getD r 0 = 1 := hdiag
      rw [h2, h3, one_mul] at h1
      exact h1
    -- the remaining-columns dot product is ≡ 0
    have hdotS : dotL (((F.getD r []).drop (r + 1)).take (n - (r + 1)))
        (xList m n F (r + 1)) ≡ 0 [ZMOD m] := by
      rw [dotL_eq_sum]
      have hlen1 : (((F.getD r []).drop (r + 1)).take (n - (r + 1))).length
          = n - (r + 1) := by
        rw [List.length_take, List.length_drop, hrowlen]
        omega
      have hlen2 : (xList m n F (r + 1)).length = n - (r + 1) := xList_len _
      rw [hlen1, hlen2, Nat.min_self]
      have hz : (∑ j ∈ Finset.range (n - (r + 1)),
            (((F.getD r []).drop (r + 1)).take (n - (r + 1))).getD j 0 *
              (xList m n F (r + 1)).getD j 0)
          ≡ (∑ _j ∈ Finset.range (n - (r + 1)), (0 : Int)) [ZMOD m] := by
        refine modeq_sum (fun j hj => ?_)
        have hjlt : j < n - (r + 1) := Finset.mem_range.1 hj
        rw [getD_take_lt _ hjlt, getD_drop', xList_getD]
        exact hterm (r + 1 + j) (by omega) (by omega)
      simpa using hz
    have hentry : xEntry m n F r ≡ (F.getD r []).getD n 0 [ZMOD m] := by
      rw [xEntry_lt r hr, if_pos (by simp [hdiag])]
      refine (emod_modeq _ m).trans ?_
      have := (Int.ModEq.refl (n := m) ((F.getD r []).getD n 0)).sub hdotS
      simpa using this
    exact hsum.trans hentry
  · -- non-pivot row: identically zero row with zero target
    have hz : ∀ k < n, (F.getD r []).getD k 0 = 0 := by
      intro k hkn
      exact (hGOOD r hr k hkn).2 hdiag
    have hLHS : (∑ k ∈ Finset.range n,
        (F.getD r []).getD k 0 * xEntry m n F k) = 0 := by
      refine Finset.sum_eq_zero (fun k hk => ?_)
      rw [hz k (Finset.mem_range.1 hk), zero_mul]
    rw [hLHS, check_row_zero hcheck hr hWF.1 hrowlen hz]

/-! ## Soundness of `gaussCore` under the reference certificate -/

lemma getD_append_left {u w : List Int} {k : Nat} (h : k < u.length) :
    (u ++ w).getD k 0 = u.getD k 0 := by
  rw [List.getD_eq_getElem?_getD, List.getD_eq_getElem?_getD,
    List.getElem?_append, if_pos h]

lemma getD_append_single (u : List Int) (v : Int) :
    (u ++ [v]).getD u.length 0 = v := by
  rw [List.getD_eq_getElem?_getD, List.getElem?_append,
    if_neg (by omega)]
  simp

lemma length_augment {A : List (List Int)} {b : List Int} {n : Nat}
    (hA : A.length = n) (hb : b.length = n) : (augment A b).length = n := by
  unfold augment
  rw [List.length_zipWith, hA, hb]
  simp

lemma getD_augment {A : List (List Int)} {b : List Int} {n r : Nat}
    (hA : A.length = n) (hb : b.length = n) (hr : r < n) :
    (augment A b).getD r [] = (A.getD r []) ++ [b.getD r 0] := by
  unfold augment
  rw [List.getD_eq_getElem?_getD, List.getElem?_zipWith,
    List.getElem?_eq_getElem (by omega), List.getElem?_eq_getElem (by omega)]
  simp only [Option.getD_some]
  rw [List.getD_eq_getElem?_getD, List.getElem?_eq_getElem (by omega),
    List.getD_eq_getElem?_getD, List.getElem?_eq_getElem (by omega)]
  rfl

lemma WFA_augment {A : List (List Int)} {b : List Int} {n : Nat}
    (hA : A.length = n) (hArows : ∀ r < n, (A.getD r []).length = n)
    (hb : b.length = n) : WFA n (augment A b) := by
  refine ⟨length_augment hA hb, fun r hr => ?_⟩
  rw [getD_augment hA hb hr, List.length_append, hArows r hr]
  rfl

lemma takeN_augment {A : List (List Int)} {b : List Int} {n : Nat}
    (hA : A.length = n) (hArows : ∀ r < n, (A.getD r []).length = n)
    (hb : b.length = n) : takeN n (augment A b) = A := by
  refine List.ext_getElem ?_ (fun r h1 h2 => ?_)
  · unfold takeN
    rw [List.length_map, length_augment hA hb, hA]
  have hr : r < n := by
    unfold takeN at h1
    rw [List.length_map, length_augment hA hb] at h1
    exact h1
  have hgetD : (takeN n (augment A b)).getD r [] = A.getD r [] := by
    rw [getD_takeN, getD_augment hA hb hr]
    have : (A.getD r []) ++ [b.getD r 0] = A.getD r [] ++ [b.getD r 0] := rfl
    rw [show n = (A.getD r []).length from (hArows r hr).symm]
    exact List.take_left _ _
  rw [List.getD_eq_getElem?_getD, List.getElem?_eq_getElem h1] at hgetD
  rw [List.getD_eq_getElem?_getD, List.getElem?_eq_getElem h2] at hgetD
  simpa using hgetD

lemma GOODP_of_takeN {m : Int} {n : Nat} {F Fr : List (List Int)}
    (hEq : takeN n F = takeN n Fr) (h : GOODP m n Fr) : GOODP m n F := by
  intro r hr k hk
  rcases h r hr k hk with ⟨h1, h2⟩
  rw [get2_of_takeN hEq hk r, get2_of_takeN hEq hk k,
    get2_of_takeN hEq hr r]
  exact ⟨h1, h2⟩

/-- Soundness: whatever solution `gaussian_elimination_mod`'s core returns
is a genuine solution of `A·x ≡ b (mod m)` with entries in `[0, m)`,
provided the coefficient matrix carries the (checkable, `b`-independent)
certificate `certOK`. -/
theorem gaussCore_sound {m : Int} {n : Nat} {A : List (List Int)}
    {b x : List Int} (hm : 0 < m) (hA : A.length = n)
    (hArows : ∀ r < n, (A.getD r []).length = n) (hb : b.length = n)
    (hcert : certOK A m n = true)
    (hx : gaussCore m n (augment A b) = some x) :
    x.length = n ∧ (∀ k < n, 0 ≤ x.getD k 0 ∧ x.getD k 0 < m) ∧
    ∀ t < n, (∑ j ∈ Finset.range n, get2 A t j * x.getD j 0)
      ≡ b.getD t 0 [ZMOD m] := by
  unfold gaussCore at hx
  rcases hElim : elimLoop m n (augment A b) with _ | F <;> rw [hElim] at hx <;>
    dsimp only at hx
  · exact absurd hx (by simp)
  by_cases hcheck : checkConsistent n F = true
  · rw [if_pos hcheck] at hx
    have hxval : x = backSub m n F := (Option.some_injective _ hx).symm
    have hWFab : WFA n (augment A b) := WFA_augment hA hArows hb
    have hsat := elimLoop_sat hElim hWFab
    -- transfer the certificate from the reference run
    have hTake : takeN n (augment A b) =
        takeN n (augment A (List.replicate n 0)) := by
      rw [takeN_augment hA hArows hb,
        takeN_augment hA hArows (List.length_replicate n 0)]
    have hsim := elimLoop_sim (m := m) hTake
    rw [hElim] at hsim
    have hGF : GOODP m n F := by
      unfold certOK refMatrix at hcert
      rcases href : elimLoop m n (augment A (List.replicate n 0)) with _ | Fr
      · rw [href] at hsim
        exact absurd hsim (by simp)
      · rw [href] at hsim hcert
        have hEq : takeN n F = takeN n Fr := by simpa using hsim
        exact GOODP_of_takeN hEq (GOODB_to_GOODP hcert)
    have hsatF : satSys m n F (backSub m n F) :=
      backSub_satSys hsat.1 hGF hcheck
    have hsatAb : satSys m n (augment A b) (backSub m n F) :=
      ((hsat.2 (backSub m n F)).mp hsatF)
    refine ⟨?_, ?_, ?_⟩
    · rw [hxval, backSub_eq_xList, xList_len 0]
      omega
    · intro k _
      rw [hxval, backSub_eq_xList, xList_getD k 0]
      exact xEntry_range hm _
    · intro t ht
      have hrow := hsatAb t ht
      unfold rowSat at hrow
      rw [getD_augment hA hb ht] at hrow
      have hlenA : (A.getD t []).length = n := hArows t ht
      have hSD : SDot n (A.getD t [] ++ [b.getD t 0]) (backSub m n F) =
          ∑ j ∈ Finset.range n, get2 A t j * (backSub m n F).getD j 0 := by
        unfold SDot
        refine Finset.sum_congr rfl (fun j hj => ?_)
        rw [getD_append_left (by rw [hlenA]; exact Finset.mem_range.1 hj)]
        rfl
      rw [hSD] at hrow
      have hbt : (A.getD t [] ++ [b.getD t 0]).getD n 0 = b.getD t 0 := by
        rw [show n = (A.getD t []).length from hlenA.symm]
        exact getD_append_single _ _
      rw [hbt] at hrow
      rw [hxval]
      exact hrow
  · rw [if_neg hcheck] at hx
    exact absurd hx (by simp)

/-! ## Replay -/

lemma applyClick_length (m : Int) (aff : List Nat) (board : List Int) :
    (applyClick m aff board).length = board.length := by
  induction aff generalizing board with
  | nil => rfl
  | cons a rest ih =>
    unfold applyClick at ih ⊢
    rw [List.foldl_cons, ih, List.length_set]

lemma getD_set_self {board : List Int} {t : Nat} {v : Int}
    (h : t < board.length) : (board.set t v).getD t 0 = v := by
  rw [List.getD_eq_getElem?_getD, List.getElem?_set_self h]
  rfl

lemma getD_set_ne {board : List Int} {s t : Nat} {v : Int} (h : s ≠ t) :
    (board.set s v).getD t 0 = board.getD t 0 := by
  rw [List.getD_eq_getElem?_getD, List.getElem?_set_ne h,
    ← List.getD_eq_getElem?_getD]

lemma applyClick_getD {m : Int} :
    ∀ (aff : List Nat) (board : List Int), aff.Nodup → ∀ (t : Nat),
      (applyClick m aff board).getD t 0 =
        if t ∈ aff ∧ t < board.length then
          (board.getD t 0 - 1 + 1) % m + 1
        else board.getD t 0 := by
  intro aff
  induction aff with
  | nil =>
    intro board _ t
    simp [applyClick]
  | cons a rest ih =>
    intro board hnd t
    rcases List.nodup_cons.1 hnd with ⟨ha, hrest⟩
    have hstep : applyClick m (a :: rest) board =
        applyClick m rest (board.set a ((board.getD a 0 - 1 + 1) % m + 1)) :=
      rfl
    rw [hstep, ih _ hrest t, List.length_set]
    by_cases hta : t = a
    · subst hta
      have htr : t ∉ rest := ha
      rw [if_neg (by tauto)]
      by_cases htl : t < board.length
      · rw [if_pos ⟨List.mem_cons_self t rest, htl⟩, getD_set_self htl]
      · rw [if_neg (by tauto), List.set_eq_of_length_le (by omega)]
    · rw [getD_set_ne (fun h => hta h.symm)]
      by_cases htr : t ∈ rest
      · by_cases htl : t < board.length
        · rw [if_pos ⟨htr, htl⟩, if_pos ⟨List.mem_cons_of_mem a htr, htl⟩]
        · rw [if_neg (by tauto), if_neg (by tauto)]
      · rw [if_neg (by tauto),
          if_neg (fun hcon => (List.mem_cons.1 hcon.1).elim hta htr)]

lemma replay_snd (cfg : Config) (adj : Nat → List Nat) :
    ∀ (path : List ClickVal) (board : List Int) (acc : List SolutionStep),
      (path.foldl (fun st cv =>
        (st.1 ++ [⟨cv, adj (clickIndex cfg cv),
          applyClick cfg.modulus (adj (clickIndex cfg cv)) st.2⟩],
          applyClick cfg.modulus (adj (clickIndex cfg cv)) st.2))
        (acc, board)).2 =
      path.foldl (fun bd cv =>
        applyClick cfg.modulus (adj (clickIndex cfg cv)) bd) board := by
  intro path
  induction path with
  | nil => intro board acc; rfl
  | cons c rest ih =>
    intro board acc
    rw [List.foldl_cons, List.foldl_cons]
    exact ih _ _

lemma replay_unfold (cfg : Config) (adj : Nat → List Nat)
    (path : List ClickVal) (board : List Int) :
    replay cfg adj path board =
      path.foldl (fun st cv =>
        (st.1 ++ [⟨cv, adj (clickIndex cfg cv),
          applyClick cfg.modulus (adj (clickIndex cfg cv)) st.2⟩],
          applyClick cfg.modulus (adj (clickIndex cfg cv)) st.2))
        ([], board) := rfl

lemma replay_final_gen (cfg : Config) (adj : Nat → List Nat) :
    ∀ (path : List ClickVal) (acc : List SolutionStep) (board fb : List Int),
      finalBoardOf acc fb = board →
      finalBoardOf
        ((path.foldl (fun st cv =>
          (st.1 ++ [⟨cv, adj (clickIndex cfg cv),
            applyClick cfg.modulus (adj (clickIndex cfg cv)) st.2⟩],
            applyClick cfg.modulus (adj (clickIndex cfg cv)) st.2))
          (acc, board)).1) fb =
      (path.foldl (fun st cv =>
        (st.1 ++ [⟨cv, adj (clickIndex cfg cv),
          applyClick cfg.modulus (adj (clickIndex cfg cv)) st.2⟩],
          applyClick cfg.modulus (adj (clickIndex cfg cv)) st.2))
        (acc, board)).2 := by
  intro path
  induction path with
  | nil =>
    intro acc board fb hacc
    exact hacc
  | cons c rest ih =>
    intro acc board fb hacc
    rw [List.foldl_cons]
    refine ih _ _ fb ?_
    unfold finalBoardOf
    rw [List.getLast?_concat]

lemma finalBoard_replay (cfg : Config) (adj : Nat → List Nat)
    (path : List ClickVal) (board : List Int) :
    finalBoardOf (replay cfg adj path board).1 board =
      (replay cfg adj path board).2 := by
  rw [replay_unfold]
  exact replay_final_gen cfg adj path [] board board rfl

lemma foldl_applyClick_getD {cfg : Config} {adj : Nat → List Nat}
    (hadj : ∀ ci, (adj ci).Nodup ∧ ∀ t ∈ adj ci, t < cfg.n) :
    ∀ (path : List ClickVal) (board : List Int), board.length = cfg.n →
      ∀ t, t < cfg.n →
      (path.foldl (fun bd cv =>
          applyClick cfg.modulus (adj (clickIndex cfg cv)) bd) board).getD t 0 =
        if pressCount adj cfg path t = 0 then board.getD t 0
        else (board.getD t 0 - 1 + (pressCount adj cfg path t : Int))
          % cfg.modulus + 1 := by
  intro path
  induction path with
  | nil =>
    intro board hlen t ht
    simp [pressCount]
  | cons c rest ih =>
    intro board hlen t ht
    rw [List.foldl_cons]
    have hnd := (hadj (clickIndex cfg c)).1
    have hlen' : (applyClick cfg.modulus (adj (clickIndex cfg c)) board).length
        = cfg.n := by rw [applyClick_length, hlen]
    rw [ih _ hlen' t ht]
    have hcnt : pressCount adj cfg (c :: rest) t =
        pressCount adj cfg rest t +
          (if t ∈ adj (clickIndex cfg c) then 1 else 0) := by
      unfold pressCount
      rw [List.countP_cons]
      congr 1
      by_cases hmem : t ∈ adj (clickIndex cfg c)
      · rw [if_pos hmem, if_pos (show ((adj (clickIndex cfg c)).contains t)
          = true from List.elem_iff.2 hmem)]
      · rw [if_neg hmem, if_neg (show ¬ ((adj (clickIndex cfg c)).contains t)
          = true from fun hc => hmem (List.elem_iff.1 hc))]
    have hget : (applyClick cfg.modulus (adj (clickIndex cfg c)) board).getD t 0
        = if t ∈ adj (clickIndex cfg c) then
            (board.getD t 0 - 1 + 1) % cfg.modulus + 1
          else board.getD t 0 := by
      rw [applyClick_getD _ _ hnd t]
      by_cases hmem : t ∈ adj (clickIndex cfg c)
      · rw [if_pos hmem, if_pos ⟨hmem, by omega⟩]
      · rw [if_neg hmem, if_neg (by tauto)]
    by_cases hmem : t ∈ adj (clickIndex cfg c)
    · rw [hcnt, if_pos hmem, hget, if_pos hmem]
      by_cases hz : pressCount adj cfg rest t = 0
      · rw [if_pos hz, if_neg (by omega), hz]
        push_cast
        ring_nf
      · rw [if_neg hz, if_neg (by omega)]
        rw [Int.add_comm ((board.getD t 0 - 1 + 1) % cfg.modulus) 1]
        rw [show (1 : Int) + (board.getD t 0 - 1 + 1) % cfg.modulus - 1 +
            (pressCount adj cfg rest t : Int) =
          (board.getD t 0 - 1 + 1) % cfg.modulus +
            (pressCount adj cfg rest t : Int) by ring]
        rw [Int.emod_add_emod]
        push_cast
        ring_nf
    · rw [hcnt, if_neg hmem, hget, if_neg hmem]
      simp

lemma countP_flatMap {α β : Type} (p : β → Bool) (f : α → List β) :
    ∀ L : List α, (L.flatMap f).countP p =
      (L.map (fun i => (f i).countP p)).sum := by
  intro L
  induction L with
  | nil => rfl
  | cons a L ih =>
    rw [List.flatMap_cons, List.countP_append, List.map_cons, List.sum_cons,
      ih]

lemma sum_map_range (f : Nat → Nat) :
    ∀ n : Nat, ((List.range n).map f).sum = ∑ i ∈ Finset.range n, f i := by
  intro n
  induction n with
  | zero => rfl
  | succ n ih =>
    rw [List.range_succ, List.map_append, List.sum_append,
      Finset.sum_range_succ, ih]
    simp

lemma clickIndex_button {cfg : Config}
    (_hgrid : cfg.isGrid = true → 0 < cfg.size_rc) (i : Nat) :
    clickIndex cfg
      (if cfg.isGrid then ClickVal.gridC (i / cfg.size_rc) (i % cfg.size_rc)
       else ClickVal.hexC i) = i := by
  by_cases hg : cfg.isGrid
  · rw [if_pos hg]
    show i / cfg.size_rc * cfg.size_rc + i % cfg.size_rc = i
    calc i / cfg.size_rc * cfg.size_rc + i % cfg.size_rc
        = cfg.size_rc * (i / cfg.size_rc) + i % cfg.size_rc := by ring
    _ = i := Nat.div_add_mod i cfg.size_rc
  · rw [if_neg hg]
    rfl

lemma pressCount_clickPath {cfg : Config} {adj : Nat → List Nat}
    {x : List Int} (hgrid : cfg.isGrid = true → 0 < cfg.size_rc) (t : Nat) :
    pressCount adj cfg (clickPath cfg x) t =
      ∑ i ∈ Finset.range cfg.n,
        (x.getD i 0).toNat * (if t ∈ adj i then 1 else 0) := by
  unfold pressCount clickPath
  rw [countP_flatMap, sum_map_range]
  refine Finset.sum_congr rfl (fun i _ => ?_)
  by_cases hpos : x.getD i 0 > 0
  · rw [if_pos hpos, List.countP_replicate]
    by_cases hmem : t ∈ adj i
    · rw [if_pos (show ((adj (clickIndex cfg
        (if cfg.isGrid then ClickVal.gridC (i / cfg.size_rc) (i % cfg.size_rc)
         else ClickVal.hexC i))).contains t) = true by
          rw [clickIndex_button hgrid i]
          exact List.elem_iff.2 hmem), if_pos hmem, Nat.mul_one]
    · rw [if_neg (show ¬ ((adj (clickIndex cfg
        (if cfg.isGrid then ClickVal.gridC (i / cfg.size_rc) (i % cfg.size_rc)
         else ClickVal.hexC i))).contains t) = true by
          rw [clickIndex_button hgrid i]
          exact fun hc => hmem (List.elem_iff.1 hc)), if_neg hmem,
        Nat.mul_zero]
  · rw [if_neg hpos, List.countP_nil]
    have h0 : (x.getD i 0).toNat = 0 := by omega
    rw [h0, Nat.zero_mul]

lemma foldl_applyClick_length (cfg : Config) (adj : Nat → List Nat) :
    ∀ (path : List ClickVal) (board : List Int),
      (path.foldl (fun bd cv =>
          applyClick cfg.modulus (adj (clickIndex cfg cv)) bd) board).length =
        board.length := by
  intro path
  induction path with
  | nil => intro board; rfl
  | cons c rest ih =>
    intro board
    rw [List.foldl_cons, ih, applyClick_length]

lemma replay_snd_eq (cfg : Config) (adj : Nat → List Nat)
    (path : List ClickVal) (board : List Int) :
    (replay cfg adj path board).2 =
      path.foldl (fun bd cv =>
        applyClick cfg.modulus (adj (clickIndex cfg cv)) bd) board := by
  rw [replay_unfold]
  exact replay_snd cfg adj path board []

/-- Replaying the press counts of any solution of the facade's linear
system turns every tile of a well-formed board into a 1. -/
theorem replay_all_ones {cfg : Config} {adj : Nat → List Nat}
    {board x : List Int} (hm : 2 ≤ cfg.modulus)
    (hgrid : cfg.isGrid = true → 0 < cfg.size_rc)
    (hadj : ∀ ci, (adj ci).Nodup ∧ ∀ t ∈ adj ci, t < cfg.n)
    (hlen : board.length = cfg.n)
    (hentries : ∀ v ∈ board, 0 ≤ v ∧ v < cfg.modulus)
    (hxnn : ∀ j, 0 ≤ x.getD j 0)
    (hAx : ∀ t < cfg.n, (∑ j ∈ Finset.range cfg.n,
        (if t ∈ adj j then (1 : Int) else 0) * x.getD j 0)
      ≡ (1 - board.getD t 0) % cfg.modulus [ZMOD cfg.modulus]) :
    ∀ v ∈ finalBoardOf (replay cfg adj (clickPath cfg x) board).1 board,
      v = 1 := by
  rw [finalBoard_replay, replay_snd_eq]
  intro v hv
  rcases List.mem_iff_getElem.1 hv with ⟨t, ht, rfl⟩
  have htn : t < cfg.n := by
    rw [foldl_applyClick_length, hlen] at ht
    exact ht
  have hvD : (List.foldl (fun bd cv =>
      applyClick cfg.modulus (adj (clickIndex cfg cv)) bd) board
        (clickPath cfg x))[t] =
      (List.foldl (fun bd cv =>
        applyClick cfg.modulus (adj (clickIndex cfg cv)) bd) board
          (clickPath cfg x)).getD t 0 := by
    rw [List.getD_eq_getElem?_getD, List.getElem?_eq_getElem ht]
    rfl
  rw [hvD, foldl_applyClick_getD hadj _ board hlen t htn]
  -- the board entry and its bounds
  have hv0 : 0 ≤ board.getD t 0 ∧ board.getD t 0 < cfg.modulus := by
    refine hentries _ ?_
    rw [List.getD_eq_getElem?_getD, List.getElem?_eq_getElem (by omega)]
    exact List.getElem_mem _
  -- the press count is ≡ 1 - v0 (mod m)
  have hcong : ((pressCount adj cfg (clickPath cfg x) t : Int))
      ≡ 1 - board.getD t 0 [ZMOD cfg.modulus] := by
    have h1 : ((pressCount adj cfg (clickPath cfg x) t : Int)) =
        ∑ j ∈ Finset.range cfg.n,
          (if t ∈ adj j then (1 : Int) else 0) * x.getD j 0 := by
      rw [pressCount_clickPath hgrid t]
      push_cast
      refine Finset.sum_congr rfl (fun j _ => ?_)
      rw [Int.toNat_of_nonneg (hxnn j)]
      by_cases hmem : t ∈ adj j <;> simp [hmem, mul_comm]
    rw [h1]
    exact (hAx t htn).trans (emod_modeq _ _)
  by_cases hz : pressCount adj cfg (clickPath cfg x) t = 0
  · rw [if_pos hz]
    rw [hz] at hcong
    have hv1 : board.getD t 0 ≡ 1 [ZMOD cfg.modulus] := by
      have := (Int.ModEq.add_left (board.getD t 0) hcong.symm)
      simpa using this.symm
    unfold Int.ModEq at hv1
    rw [Int.emod_eq_of_lt hv0.1 hv0.2,
      Int.emod_eq_of_lt (by omega) (by omega)] at hv1
    exact hv1
  · rw [if_neg hz]
    have h0 : (board.getD t 0 - 1 +
        (pressCount adj cfg (clickPath cfg x) t : Int)) ≡ 0
          [ZMOD cfg.modulus] := by
      have := (Int.ModEq.add_left (board.getD t 0 - 1) hcong)
      simpa using this
    unfold Int.ModEq at h0
    rw [Int.zero_emod] at h0
    rw [h0]
    ring

/-! ## Facade: adjacency and matrix facts -/

lemma getD_map_lt {board : List Int} {t : Nat} (f : Int → Int)
    (h : t < board.length) :
    (board.map f).getD t 0 = f (board.getD t 0) := by
  rw [List.getD_eq_getElem?_getD, List.getElem?_map,
    List.getElem?_eq_getElem h, List.getD_eq_getElem?_getD,
    List.getElem?_eq_getElem h]
  rfl

lemma gridAdj_wf (s : Nat) :
    ∀ ci, (gridAdj s ci).Nodup ∧ ∀ t ∈ gridAdj s ci, t < s * s := by
  intro ci
  constructor
  · exact (List.nodup_range (s * s)).sublist (List.filter_sublist _)
  · intro t ht
    have := List.mem_filter.1 ht
    exact List.mem_range.1 this.1

lemma hexAdjMap3_rows_wf :
    ∀ row ∈ hexAdjMap 3, row.Nodup ∧ ∀ t ∈ row, t < 37 := by
  rw [hexAdjMap3_eq]
  decide

lemma hexAdjMap3_length : (hexAdjMap 3).length = 37 := by
  rw [hexAdjMap3_eq]
  rfl

lemma hexAdj_wf :
    ∀ ci, ((hexAdjMap 3).getD ci []).Nodup ∧
      ∀ t ∈ (hexAdjMap 3).getD ci [], t < 37 := by
  intro ci
  by_cases hci : ci < (hexAdjMap 3).length
  · refine hexAdjMap3_rows_wf _ ?_
    rw [List.getD_eq_getElem?_getD, List.getElem?_eq_getElem hci]
    exact List.getElem_mem _
  · rw [List.getD_eq_default _ _ (by omega)]
    exact ⟨List.nodup_nil, by simp⟩

lemma buildA_length (n : Nat) (adj : Nat → List Nat) :
    (buildA n adj).length = n := by simp [buildA]

lemma buildA_rows (n : Nat) (adj : Nat → List Nat) :
    ∀ r < n, ((buildA n adj).getD r []).length = n := by
  intro r hr
  unfold buildA
  rw [getD_range_map, if_pos hr, List.length_map, List.length_range]

lemma get2_buildA {n t j : Nat} (adj : Nat → List Nat) (ht : t < n)
    (hj : j < n) :
    get2 (buildA n adj) t j = if t ∈ adj j then 1 else 0 := by
  unfold get2 buildA
  rw [getD_range_map, if_pos ht, getD_range_map, if_pos hj]
  by_cases hmem : t ∈ adj j
  · rw [if_pos (List.elem_iff.2 hmem), if_pos hmem]
  · rw [if_neg (fun hc => hmem (List.elem_iff.1 hc)), if_neg hmem]

lemma getD_zero_of_ge {x : List Int} {j : Nat} (h : x.length ≤ j) :
    x.getD j 0 = 0 := List.getD_eq_default _ _ h

/-- The common soundness core of the plain (non-composite) facade path:
a returned `gaussCore` solution replays to the all-ones board. -/
theorem solve_plain_sound {cfg : Config} {board x : List Int}
    (hm : 2 ≤ cfg.modulus)
    (hgrid : cfg.isGrid = true → 0 < cfg.size_rc)
    (hadj : ∀ ci, ((adjOf cfg) ci).Nodup ∧ ∀ t ∈ (adjOf cfg) ci, t < cfg.n)
    (hcert : certOK (buildA cfg.n (adjOf cfg)) cfg.modulus cfg.n = true)
    (hlen : board.length = cfg.n)
    (hentries : ∀ v ∈ board, 0 ≤ v ∧ v < cfg.modulus)
    (hx : gaussCore cfg.modulus cfg.n
      (augment (buildA cfg.n (adjOf cfg))
        (board.map (fun v => (1 - v) % cfg.modulus))) = some x) :
    ∀ v ∈ finalBoardOf (replay cfg (adjOf cfg) (clickPath cfg x) board).1
      board, v = 1 := by
  have hsound := gaussCore_sound (by omega) (buildA_length cfg.n (adjOf cfg))
    (buildA_rows cfg.n (adjOf cfg)) (by rw [List.length_map, hlen]) hcert hx
  refine replay_all_ones hm hgrid hadj hlen hentries ?_ ?_
  · intro j
    by_cases hj : j < cfg.n
    · exact (hsound.2.1 j hj).1
    · rw [getD_zero_of_ge (by rw [hsound.1]; omega)]
  · intro t ht
    have hrow := hsound.2.2 t ht
    have hb : (board.map (fun v => (1 - v) % cfg.modulus)).getD t 0 =
        (1 - board.getD t 0) % cfg.modulus :=
      getD_map_lt _ (by omega)
    rw [hb] at hrow
    refine Int.ModEq.trans ?_ hrow
    refine Int.ModEq.symm ?_
    have hsum : (∑ j ∈ Finset.range cfg.n,
        get2 (buildA cfg.n (adjOf cfg)) t j * x.getD j 0) =
        ∑ j ∈ Finset.range cfg.n,
          (if t ∈ (adjOf cfg) j then (1 : Int) else 0) * x.getD j 0 := by
      refine Finset.sum_congr rfl (fun j hj => ?_)
      rw [get2_buildA (adjOf cfg) ht (Finset.mem_range.1 hj)]
    rw [hsum]

/-! ## The composite (mod 6) path -/

lemma crtCombine_getD {n : Nat} {x2 x3 : List Int} {j : Nat} (hj : j < n) :
    (crtCombine n x2 x3).getD j 0 = crtFind (x2.getD j 0) (x3.getD j 0) := by
  unfold crtCombine crtFind
  rw [getD_range_map, if_pos hj]

lemma crtCombine_length (n : Nat) (x2 x3 : List Int) :
    (crtCombine n x2 x3).length = n := by
  simp [crtCombine]

lemma crtFind_spec {a c : Int} (ha0 : 0 ≤ a) (ha2 : a < 2) (hc0 : 0 ≤ c)
    (hc3 : c < 3) :
    crtFind a c % 2 = a ∧ crtFind a c % 3 = c ∧
      0 ≤ crtFind a c ∧ crtFind a c < 6 := by
  have ha : a = 0 ∨ a = 1 := by omega
  have hc : c = 0 ∨ c = 1 ∨ c = 2 := by omega
  rcases ha with rfl | rfl <;> rcases hc with rfl | rfl | rfl <;> decide

lemma crtFind_unique {a c k : Int} (ha0 : 0 ≤ a) (ha2 : a < 2) (hc0 : 0 ≤ c)
    (hc3 : c < 3) (hk0 : 0 ≤ k) (hk6 : k < 6) (h2 : k % 2 = a)
    (h3 : k % 3 = c) : k = crtFind a c := by
  obtain ⟨g2, g3, g0, g6⟩ := crtFind_spec ha0 ha2 hc0 hc3
  omega

lemma modeq_six_of_two_three {a b : Int} (h2 : a ≡ b [ZMOD 2])
    (h3 : a ≡ b [ZMOD 3]) : a ≡ b [ZMOD 6] := by
  rw [Int.modEq_iff_dvd] at h2 h3 ⊢
  have hco : IsCoprime (2 : Int) 3 := ⟨-1, 1, by ring⟩
  have := hco.mul_dvd h2 h3
  norm_num at this
  exact this

lemma cert_hex2 :
    certOK (buildA 37 (fun k => (hexAdjMap 3).getD k [])) 2 37 = true := by
  unfold certOK refMatrix
  rw [buildA_hex_eq, elim2_zero]
  decide

lemma cert_hex3 :
    certOK (buildA 37 (fun k => (hexAdjMap 3).getD k [])) 3 37 = true := by
  unfold certOK refMatrix
  rw [buildA_hex_eq, elim3_zero]
  decide

lemma adjOf_hex (s : Nat) (mo : Int) :
    adjOf ⟨37, s, mo, false⟩ = fun k => (hexAdjMap 3).getD k [] := rfl

set_option maxRecDepth 100000 in
/-- The composite path: valid mod-2 and mod-3 sub-solutions replay (with
the CRT-reconstructed press counts, mod 6) to the all-ones board. -/
theorem solve_expert_sound {board x2 x3 : List Int}
    (hlen : board.length = 37)
    (hentries : ∀ v ∈ board, 0 ≤ v ∧ v < 6)
    (hx2 : gaussCore 2 37 (augment (buildA 37 (adjOf ⟨37, 0, 6, false⟩))
      ((board.map (fun v => (1 - v) % 6)).map (· % 2))) = some x2)
    (hx3 : gaussCore 3 37 (augment (buildA 37 (adjOf ⟨37, 0, 6, false⟩))
      ((board.map (fun v => (1 - v) % 6)).map (· % 3))) = some x3) :
    ∀ v ∈ finalBoardOf
      (replay ⟨37, 0, 6, false⟩ (adjOf ⟨37, 0, 6, false⟩)
        (clickPath ⟨37, 0, 6, false⟩ (crtCombine 37 x2 x3)) board).1 board,
      v = 1 := by
  have hadjeq : adjOf ⟨37, 0, 6, false⟩ = fun k => (hexAdjMap 3).getD k [] :=
    rfl
  have hs2 := gaussCore_sound (m := 2) (by omega)
    (buildA_length 37 (adjOf ⟨37, 0, 6, false⟩))
    (buildA_rows 37 (adjOf ⟨37, 0, 6, false⟩))
    (by rw [List.length_map, List.length_map, hlen])
    (by rw [hadjeq]; exact cert_hex2) hx2
  have hs3 := gaussCore_sound (m := 3) (by omega)
    (buildA_length 37 (adjOf ⟨37, 0, 6, false⟩))
    (buildA_rows 37 (adjOf ⟨37, 0, 6, false⟩))
    (by rw [List.length_map, List.length_map, hlen])
    (by rw [hadjeq]; exact cert_hex3) hx3
  have hmm : (2 : Int) ≤ (⟨37, 0, 6, false⟩ : Config).modulus := by norm_num
  have hgr : (⟨37, 0, 6, false⟩ : Config).isGrid = true →
      0 < (⟨37, 0, 6, false⟩ : Config).size_rc := by
    intro h
    exact absurd h (by norm_num)
  refine replay_all_ones hmm hgr
    (by rw [hadjeq]; exact hexAdj_wf) hlen hentries ?_ ?_
  · intro j
    by_cases hj : j < 37
    · rw [crtCombine_getD hj]
      have h2 := (hs2.2.1 j hj)
      have h3 := (hs3.2.1 j hj)
      exact (crtFind_spec h2.1 h2.2 h3.1 h3.2).2.2.1
    · rw [getD_zero_of_ge (by rw [crtCombine_length]; omega)]
  · intro t ht
    have ht37 : t < 37 := ht
    -- per-entry congruences of the reconstruction
    have hxe : ∀ j, j < 37 →
        (crtCombine 37 x2 x3).getD j 0 % 2 = x2.getD j 0 ∧
        (crtCombine 37 x2 x3).getD j 0 % 3 = x3.getD j 0 := by
      intro j hj
      rw [crtCombine_getD hj]
      have h2 := (hs2.2.1 j hj)
      have h3 := (hs3.2.1 j hj)
      obtain ⟨g2, g3, _, _⟩ := crtFind_spec h2.1 h2.2 h3.1 h3.2
      exact ⟨g2, g3⟩
    have hbt : (board.map (fun v => (1 - v) % 6)).getD t 0 =
        (1 - board.getD t 0) % 6 := getD_map_lt _ (by omega)
    -- the sum is ≡ the target mod 2 and mod 3, hence mod 6
    have key : ∀ (p : Int), p = 2 ∨ p = 3 →
        ∀ xs : List Int,
        (∀ j < 37, (∑ jj ∈ Finset.range 37,
              get2 (buildA 37 (adjOf ⟨37, 0, 6, false⟩)) j jj * xs.getD jj 0)
            ≡ ((board.map (fun v => (1 - v) % 6)).map (· % p)).getD j 0
              [ZMOD p]) →
        (∀ j < 37, (crtCombine 37 x2 x3).getD j 0 % p = xs.getD j 0) →
        (∑ j ∈ Finset.range 37,
            (if t ∈ (adjOf ⟨37, 0, 6, false⟩) j then (1 : Int) else 0) *
              (crtCombine 37 x2 x3).getD j 0)
          ≡ (1 - board.getD t 0) % 6 [ZMOD p] := by
      intro p hp xs hsound hmodp
      have h1 : (∑ j ∈ Finset.range 37,
          (if t ∈ (adjOf ⟨37, 0, 6, false⟩) j then (1 : Int) else 0) *
            (crtCombine 37 x2 x3).getD j 0)
          ≡ (∑ j ∈ Finset.range 37,
            (if t ∈ (adjOf ⟨37, 0, 6, false⟩) j then (1 : Int) else 0) *
              xs.getD j 0) [ZMOD p] := by
        refine modeq_sum (fun j hj => ?_)
        refine Int.ModEq.mul_left _ ?_
        have := hmodp j (Finset.mem_range.1 hj)
        calc (crtCombine 37 x2 x3).getD j 0
            ≡ (crtCombine 37 x2 x3).getD j 0 % p [ZMOD p] :=
              (emod_modeq _ p).symm
        _ = xs.getD j 0 := this
      have h2 : (∑ j ∈ Finset.range 37,
          (if t ∈ (adjOf ⟨37, 0, 6, false⟩) j then (1 : Int) else 0) *
            xs.getD j 0) =
          ∑ j ∈ Finset.range 37,
            get2 (buildA 37 (adjOf ⟨37, 0, 6, false⟩)) t j * xs.getD j 0 := by
        refine Finset.sum_congr rfl (fun j hj => ?_)
        rw [get2_buildA _ ht (Finset.mem_range.1 hj)]
      have h3 := hsound t ht
      have h4 : (((board.map (fun v => (1 - v) % 6)).map (· % p)).getD t 0)
          = ((1 - board.getD t 0) % 6) % p := by
        have hlb : t < (board.map (fun v => (1 - v) % 6)).length := by
          rw [List.length_map]
          omega
        rw [getD_map_lt (· % p) hlb, hbt]
      rw [h4] at h3
      refine (h1.trans (h2 ▸ h3)).trans ?_
      exact emod_modeq _ p
    have k2 := key 2 (Or.inl rfl) x2 (fun j hj => hs2.2.2 j hj)
      (fun j hj => (hxe j hj).1)
    have k3 := key 3 (Or.inr rfl) x3 (fun j hj => hs3.2.2 j hj)
      (fun j hj => (hxe j hj).2)
    exact modeq_six_of_two_three k2 k3

/-! ## The facade unfolded per difficulty -/

lemma solve_easy_unfold (board : List Int) :
    solve board "easy" =
      match gaussian_elimination_mod (buildA 9 (adjOf ⟨9, 3, 4, true⟩))
          (board.map (fun v => (1 - v) % 4)) 4 with
      | .error e => .error e
      | .ok none => .ok none
      | .ok (some x) => .ok (some (replay ⟨9, 3, 4, true⟩
          (adjOf ⟨9, 3, 4, true⟩) (clickPath ⟨9, 3, 4, true⟩ x) board).1) :=
  rfl

lemma solve_medium_unfold (board : List Int) :
    solve board "medium" =
      match gaussian_elimination_mod (buildA 16 (adjOf ⟨16, 4, 4, true⟩))
          (board.map (fun v => (1 - v) % 4)) 4 with
      | .error e => .error e
      | .ok none => .ok none
      | .ok (some x) => .ok (some (replay ⟨16, 4, 4, true⟩
          (adjOf ⟨16, 4, 4, true⟩) (clickPath ⟨16, 4, 4, true⟩ x) board).1) :=
  rfl

lemma solve_hard_unfold (board : List Int) :
    solve board "hard" =
      match gaussian_elimination_mod (buildA 37 (adjOf ⟨37, 0, 2, false⟩))
          (board.map (fun v => (1 - v) % 2)) 2 with
      | .error e => .error e
      | .ok none => .ok none
      | .ok (some x) => .ok (some (replay ⟨37, 0, 2, false⟩
          (adjOf ⟨37, 0, 2, false⟩) (clickPath ⟨37, 0, 2, false⟩ x) board).1) :=
  rfl

lemma solve_expert_unfold (board : List Int) :
    solve board "expert" =
      match solveX ⟨37, 0, 6, false⟩ (buildA 37 (adjOf ⟨37, 0, 6, false⟩))
          (board.map (fun v => (1 - v) % 6)) true with
      | .error e => .error e
      | .ok none => .ok none
      | .ok (some x) => .ok (some (replay ⟨37, 0, 6, false⟩
          (adjOf ⟨37, 0, 6, false⟩) (clickPath ⟨37, 0, 6, false⟩ x) board).1) :=
  rfl

lemma solveX_true_eq (cfg : Config) (A : List (List Int)) (b : List Int) :
    solveX cfg A b true =
      (gaussian_elimination_mod A (b.map (· % 2)) 2).bind (fun x2? =>
        (gaussian_elimination_mod A (b.map (· % 3)) 3).bind (fun x3? =>
          match x2?, x3? with
          | some x2, some x3 => .ok (some (crtCombine cfg.n x2 x3))
          | _, _ => .ok none)) := by
  unfold solveX
  rw [if_pos rfl]
  rcases gaussian_elimination_mod A (b.map (· % 2)) 2 with e | x2? <;>
    rcases hg3 : gaussian_elimination_mod A (b.map (· % 3)) 3 with e3 | x3? <;>
    rfl

/-- Shared case analysis for the three plain difficulties. -/
theorem solve_plain_case {cfg : Config} {board : List Int}
    {steps : List SolutionStep} {d : String}
    (huf : solve board d =
      match gaussian_elimination_mod (buildA cfg.n (adjOf cfg))
          (board.map (fun v => (1 - v) % cfg.modulus)) cfg.modulus with
      | .error e => .error e
      | .ok none => .ok none
      | .ok (some x) => .ok (some (replay cfg
          (adjOf cfg) (clickPath cfg x) board).1))
    (hm : 2 ≤ cfg.modulus)
    (hgrid : cfg.isGrid = true → 0 < cfg.size_rc)
    (hadj : ∀ ci, ((adjOf cfg) ci).Nodup ∧ ∀ t ∈ (adjOf cfg) ci, t < cfg.n)
    (hcert : certOK (buildA cfg.n (adjOf cfg)) cfg.modulus cfg.n = true)
    (hlen : board.length = cfg.n)
    (hentries : ∀ v ∈ board, 0 ≤ v ∧ v < cfg.modulus)
    (hsolve : solve board d = .ok (some steps)) :
    ∀ v ∈ finalBoardOf steps board, v = 1 := by
  rw [huf] at hsolve
  have hbl : (board.map (fun v => (1 - v) % cfg.modulus)).length =
      (buildA cfg.n (adjOf cfg)).length := by
    rw [List.length_map, hlen, buildA_length]
  unfold gaussian_elimination_mod at hsolve
  rw [if_pos hbl, buildA_length] at hsolve
  rcases hx : gaussCore cfg.modulus cfg.n
      (augment (buildA cfg.n (adjOf cfg))
        (board.map (fun v => (1 - v) % cfg.modulus))) with _ | x <;>
    rw [hx] at hsolve <;> dsimp only at hsolve
  · exact absurd hsolve (by simp)
  · have hsteps : (replay cfg (adjOf cfg) (clickPath cfg x) board).1 =
        steps := by
      injection hsolve with h1
      injection h1
    rw [← hsteps]
    exact solve_plain_sound hm hgrid hadj hcert hlen hentries hx

set_option maxRecDepth 100000 in
lemma cert_easy : certOK (buildA 9 (adjOf ⟨9, 3, 4, true⟩)) 4 9 = true := by
  decide

set_option maxRecDepth 100000 in
set_option maxHeartbeats 1000000 in
lemma cert_medium :
    certOK (buildA 16 (adjOf ⟨16, 4, 4, true⟩)) 4 16 = true := by
  decide

set_option maxRecDepth 100000 in
/-- C1.  For every recognized difficulty and initial board of the right
length with entries in `[0, modulus)`: when the facade returns a step
list, the board after the last step (or the unchanged initial board when
the list is empty) has every tile equal to 1. -/
theorem c1_solution_roundtrip (d : String) (cfg : Config)
    (board : List Int) (steps : List SolutionStep)
    (hd : difficultyConfig d = some cfg)
    (hlen : board.length = cfg.n)
    (hentries : ∀ v ∈ board, 0 ≤ v ∧ v < cfg.modulus)
    (hsolve : solve board d = Except.ok (some steps)) :
    ∀ v ∈ finalBoardOf steps board, v = 1 := by
  by_cases h1 : d = "easy"
  · subst h1
    have hcfg : (⟨9, 3, 4, true⟩ : Config) = cfg := Option.some_injective _ hd
    subst hcfg
    exact solve_plain_case (solve_easy_unfold board) (by norm_num)
      (fun _ => by norm_num) (gridAdj_wf 3) cert_easy hlen hentries hsolve
  by_cases h2 : d = "medium"
  · subst h2
    have hcfg : (⟨16, 4, 4, true⟩ : Config) = cfg :=
      Option.some_injective _ hd
    subst hcfg
    exact solve_plain_case (solve_medium_unfold board) (by norm_num)
      (fun _ => by norm_num) (gridAdj_wf 4) cert_medium hlen hentries hsolve
  by_cases h3 : d = "hard"
  · subst h3
    have hcfg : (⟨37, 0, 2, false⟩ : Config) = cfg :=
      Option.some_injective _ hd
    subst hcfg
    exact solve_plain_case (solve_hard_unfold board) (by norm_num)
      (fun hg => absurd hg (by norm_num)) hexAdj_wf cert_hex2 hlen hentries
      hsolve
  by_cases h4 : d = "expert"
  · subst h4
    have hcfg : (⟨37, 0, 6, false⟩ : Config) = cfg :=
      Option.some_injective _ hd
    subst hcfg
    rw [solve_expert_unfold, solveX_true_eq] at hsolve
    have hbl2 : ((board.map (fun v => (1 - v) % 6)).map (· % 2)).length =
        (buildA 37 (adjOf ⟨37, 0, 6, false⟩)).length := by
      rw [List.length_map, List.length_map, hlen, buildA_length]
    have hbl3 : ((board.map (fun v => (1 - v) % 6)).map (· % 3)).length =
        (buildA 37 (adjOf ⟨37, 0, 6, false⟩)).length := by
      rw [List.length_map, List.length_map, hlen, buildA_length]
    unfold gaussian_elimination_mod at hsolve
    rw [if_pos hbl2, if_pos hbl3, buildA_length] at hsolve
    rcases hx2 : gaussCore 2 37
        (augment (buildA 37 (adjOf ⟨37, 0, 6, false⟩))
          ((board.map (fun v => (1 - v) % 6)).map (· % 2))) with _ | x2 <;>
      rw [hx2] at hsolve <;>
      rcases hx3 : gaussCore 3 37
        (augment (buildA 37 (adjOf ⟨37, 0, 6, false⟩))
          ((board.map (fun v => (1 - v) % 6)).map (· % 3))) with _ | x3 <;>
      rw [hx3] at hsolve <;> dsimp only at hsolve
    · injection hsolve with hcon
      exact Option.noConfusion hcon
    · injection hsolve with hcon
      exact Option.noConfusion hcon
    · injection hsolve with hcon
      exact Option.noConfusion hcon
    · have hsteps : (replay ⟨37, 0, 6, false⟩ (adjOf ⟨37, 0, 6, false⟩)
          (clickPath ⟨37, 0, 6, false⟩ (crtCombine 37 x2 x3)) board).1 =
          steps := by
        injection hsolve with h1
        injection h1
      rw [← hsteps]
      exact solve_expert_sound hlen hentries hx2 hx3
  · exfalso
    unfold difficultyConfig at hd
    rw [if_neg h1, if_neg h2, if_neg h3, if_neg h4] at hd
    exact absurd hd (by simp)

/-! ## Claims C7, C8, C9 -/

set_option maxRecDepth 100000 in
/-- C7.  The even-q offset projection: `col = q`, `row = r + floor(q/2)`
with floor division; `(q - (q & 1)) // 2` equals `floor(q/2)` for every
integer `q`, negative included. -/
theorem c7_even_q_offset :
    (∀ q r : Int, axialToOffset (q, r) = (r + Int.fdiv q 2, q)) ∧
    (∀ q : Int, Int.fdiv (q - pyAnd1 q) 2 = Int.fdiv q 2) := by
  have key : ∀ q : Int, Int.fdiv (q - pyAnd1 q) 2 = Int.fdiv q 2 := by
    intro q
    unfold pyAnd1
    rw [Int.fdiv_eq_ediv _ (by norm_num), Int.fdiv_eq_ediv _ (by norm_num)]
    omega
  refine ⟨fun q r => ?_, key⟩
  unfold axialToOffset
  rw [key q]

/-- C8.  Any difficulty label outside the four recognized ones makes the
facade return the no-solution marker immediately. -/
theorem c8_unrecognized_difficulty (board : List Int) (d : String)
    (h1 : d ≠ "easy") (h2 : d ≠ "medium") (h3 : d ≠ "hard")
    (h4 : d ≠ "expert") : solve board d = Except.ok none := by
  unfold solve
  have hd : difficultyConfig d = none := by
    unfold difficultyConfig
    rw [if_neg h1, if_neg h2, if_neg h3, if_neg h4]
  rw [hd]

/-- Witness for C8 at the label `"nightmare"`. -/
theorem c8_unrecognized_difficulty_witness :
    solve [(0 : Int)] "nightmare" = Except.ok none :=
  c8_unrecognized_difficulty [(0 : Int)] "nightmare" (by decide) (by decide)
    (by decide) (by decide)

/-- C9.  For a recognized difficulty, a board that does not flatten to
the difficulty's tile count makes `solve` raise (modelled `.error`)
before any step list is produced. -/
theorem c9_malformed_length (board : List Int) (d : String) (cfg : Config)
    (hd : difficultyConfig d = some cfg) (hlen : board.length ≠ cfg.n) :
    solve board d = Except.error () := by
  by_cases h1 : d = "easy"
  · subst h1
    cases Option.some_injective _ hd
    rw [solve_easy_unfold]
    unfold gaussian_elimination_mod
    rw [if_neg (by rw [List.length_map, buildA_length]; exact hlen)]
  by_cases h2 : d = "medium"
  · subst h2
    cases Option.some_injective _ hd
    rw [solve_medium_unfold]
    unfold gaussian_elimination_mod
    rw [if_neg (by rw [List.length_map, buildA_length]; exact hlen)]
  by_cases h3 : d = "hard"
  · subst h3
    cases Option.some_injective _ hd
    rw [solve_hard_unfold]
    unfold gaussian_elimination_mod
    rw [if_neg (by rw [List.length_map, buildA_length]; exact hlen)]
  by_cases h4 : d = "expert"
  · subst h4
    cases Option.some_injective _ hd
    rw [solve_expert_unfold, solveX_true_eq]
    unfold gaussian_elimination_mod
    rw [if_neg (show ¬ ((board.map (fun v => (1 - v) % 6)).map
        (· % 2)).length = (buildA 37 (adjOf ⟨37, 0, 6, false⟩)).length by
      rw [List.length_map, List.length_map, buildA_length]
      exact hlen)]
    rfl
  · exfalso
    unfold difficultyConfig at hd
    rw [if_neg h1, if_neg h2, if_neg h3, if_neg h4] at hd
    exact absurd hd (by simp)

/-- Witness for C9: the empty board against `"easy"`. -/
theorem c9_malformed_length_witness :
    solve ([] : List Int) "easy" = Except.error () :=
  c9_malformed_length [] "easy" ⟨9, 3, 4, true⟩ rfl (by decide)

/-! ## Claim C3 -/

/-- C3 counterexample: entries are not pre-reduced mod `m`.  On
`A = [[2]], b = [0], m = 2` the scan selects the integer-nonzero entry 2
(which is ≡ 0 mod 2), the inversion fails, and the solver answers "no
solution"; pre-reducing `A` mod 2 instead yields the solution `[0]`. -/
theorem c3_counterexample :
    gaussian_elimination_mod [[2]] [0] 2 = Except.ok none ∧
    gaussian_elimination_mod [[0]] [0] 2 = Except.ok (some [0]) ∧
    (([[2]] : List (List Int)).map (fun row => row.map (· % 2))) = [[0]] ∧
    ([(0 : Int)].map (· % 2)) = [0] := by
  exact ⟨rfl, rfl, by decide, by decide⟩

/-- C3 (amended).  The augmented entries are the raw integers (no initial
reduction), and the pivot scan takes the first row whose column entry is
nonzero as an integer; when every entry already lies in `[0, m)` this
coincides with nonzero-mod-`m` selection and pre-reduction does not
change the result; a column with no nonzero entry is skipped without
aborting. -/
theorem c3_amended_claim :
    (∀ (A : List (List Int)) (b : List Int) (m : Int),
      (∀ row ∈ A, ∀ v ∈ row, 0 ≤ v ∧ v < m) →
      (∀ v ∈ b, 0 ≤ v ∧ v < m) →
      gaussian_elimination_mod (A.map (fun row => row.map (· % m)))
        (b.map (· % m)) m = gaussian_elimination_mod A b m) ∧
    (∀ (m : Int) (n : Nat) (Ab : List (List Int)) (i : Nat),
      pivotScan Ab i n = none → colStep m n Ab i = some Ab) := by
  constructor
  · intro A b m hA hb
    have hAeq : A.map (fun row => row.map (· % m)) = A := by
      refine List.map_congr_left (fun row hrow => ?_) |>.trans A.map_id
      refine List.map_congr_left (fun v hv => ?_) |>.trans row.map_id
      exact Int.emod_eq_of_lt (hA row hrow v hv).1 (hA row hrow v hv).2
    have hbeq : b.map (· % m) = b := by
      refine List.map_congr_left (fun v hv => ?_) |>.trans b.map_id
      exact Int.emod_eq_of_lt (hb v hv).1 (hb v hv).2
    rw [hAeq, hbeq]
  · intro m n Ab i h
    unfold colStep
    rw [h]

/-- Witness for the amended C3 at a concrete in-range system and a
concrete skipped column. -/
theorem c3_amended_claim_witness :
    gaussian_elimination_mod ([[1]].map (fun row => row.map (· % 2)))
        ([0].map (· % 2)) 2 = gaussian_elimination_mod [[1]] [0] 2 ∧
    colStep 2 1 [[0, 0]] 0 = some [[0, 0]] := by
  constructor
  · exact c3_amended_claim.1 [[1]] [0] 2 (by decide) (by decide)
  · exact c3_amended_claim.2 2 1 [[0, 0]] 0 (by decide)

/-! ## Claim C5 -/

lemma elimLoop_eq_partial_bind (m : Int) (n : Nat) (Ab0 : List (List Int))
    (i : Nat) (hi : i ≤ n) :
    elimLoop m n Ab0 = (partialElim m n Ab0 i).bind
      (fun Ab => (List.range' i (n - i)).foldlM
        (fun M j => colStep m n M j) Ab) := by
  unfold elimLoop partialElim
  have hsplit : List.range n = List.range i ++ List.range' i (n - i) := by
    rw [List.range_eq_range', List.range_eq_range']
    have := List.range'_append 0 i (n - i) 1
    simp only [Nat.one_mul, Nat.mul_one, Nat.zero_add] at this
    rw [show n - i + i = n from by omega] at this
    exact this.symm
  rw [hsplit, List.foldlM_append]
  rfl

lemma colStep_noninv_none {m : Int} {n : Nat} {Ab : List (List Int)}
    {i r : Nat} (hscan : pivotScan Ab i n = some r)
    (hgcd : Int.gcd (get2 (swapRows Ab i r n) i i) m ≠ 1) :
    colStep m n Ab i = none := by
  unfold colStep
  rw [hscan]
  dsimp only
  rw [gcd_ne_one_modInv hgcd]

/-- C5.  A selected pivot whose value is not coprime with the modulus
makes `gaussian_elimination_mod` answer "no solution" (it does not raise
and does not retry another pivot), and a no-solution answer of the inner
solver becomes the facade's no-solution result. -/
theorem c5_noninvertible_pivot :
    (∀ (A : List (List Int)) (b : List Int) (m : Int) (i r : Nat)
      (Ab : List (List Int)),
      b.length = A.length →
      partialElim m A.length (augment A b) i = some Ab →
      pivotScan Ab i A.length = some r →
      Int.gcd (get2 (swapRows Ab i r A.length) i i) m ≠ 1 →
      gaussian_elimination_mod A b m = Except.ok none) ∧
    (∀ (board : List Int) (d : String) (cfg : Config),
      difficultyConfig d = some cfg →
      solveX cfg (buildA cfg.n (adjOf cfg))
        ((board.map (fun v => (1 - v) % cfg.modulus)))
        (decide (d = "expert")) = Except.ok none →
      solve board d = Except.ok none) := by
  constructor
  · intro A b m i r Ab hb hpart hscan hgcd
    have hir := pivotScan_some_bounds hscan
    unfold gaussian_elimination_mod
    rw [if_pos hb]
    have hloop : elimLoop m A.length (augment A b) = none := by
      rw [elimLoop_eq_partial_bind m A.length (augment A b) i (by omega),
        hpart]
      have hlen1 : A.length - i = (A.length - i - 1) + 1 := by omega
      rw [Option.some_bind, hlen1, List.range'_succ, List.foldlM_cons,
        colStep_noninv_none hscan hgcd]
      rfl
    unfold gaussCore
    rw [hloop]
  · intro board d cfg hd hX
    unfold solve
    rw [hd]
    dsimp only
    rw [hX]

lemma b2bad_eq : badHardBoard.map (fun v => (1 - v) % (2 : Int)) = b2badC := by
  decide

lemma c5_hX :
    solveX ⟨37, 0, 2, false⟩ (buildA 37 (adjOf ⟨37, 0, 2, false⟩))
      (badHardBoard.map (fun v => (1 - v) % 2)) false = Except.ok none := by
  show gaussian_elimination_mod (buildA 37 (adjOf ⟨37, 0, 2, false⟩))
    (badHardBoard.map (fun v => (1 - v) % 2)) 2 = Except.ok none
  rw [adjOf_hex, buildA_hex_eq, b2bad_eq]
  unfold gaussian_elimination_mod
  have hlen : b2badC.length = AhexC.length := by decide
  rw [if_pos hlen]
  have h37 : AhexC.length = 37 := by decide
  rw [h37, gaussCore2_bad]

/-- Witness for C5: the pivot 2 is selected and is not invertible mod 4,
and the single-unlit hard board drives the facade to "no solution". -/
theorem c5_noninvertible_pivot_witness :
    gaussian_elimination_mod [[2]] [0] 4 = Except.ok none ∧
    solve badHardBoard "hard" = Except.ok none := by
  constructor
  · exact c5_noninvertible_pivot.1 [[2]] [0] 4 0 0 [[2, 0]] rfl rfl rfl
      (by decide)
  · exact c5_noninvertible_pivot.2 badHardBoard "hard" ⟨37, 0, 2, false⟩ rfl
      c5_hX

/-! ## Claim C4 -/

lemma gaussCore_range {m : Int} {n : Nat} {Ab0 : List (List Int)}
    {x : List Int} (hm : 0 < m) (hx : gaussCore m n Ab0 = some x) :
    x.length = n ∧ ∀ k, 0 ≤ x.getD k 0 ∧ x.getD k 0 < m := by
  unfold gaussCore at hx
  rcases hElim : elimLoop m n Ab0 with _ | F <;> rw [hElim] at hx <;>
    dsimp only at hx
  · exact absurd hx (by simp)
  by_cases hcheck : checkConsistent n F = true
  · rw [if_pos hcheck] at hx
    cases Option.some_injective _ hx
    constructor
    · rw [backSub_eq_xList, xList_len 0]
      omega
    · intro k
      rw [backSub_eq_xList]
      have := xList_getD (m := m) (n := n) (F := F) k 0
      simp only [Nat.zero_add] at this
      rw [this]
      exact xEntry_range hm k
  · rw [if_neg hcheck] at hx
    exact absurd hx (by simp)

set_option maxRecDepth 100000 in
/-- C4.  Composite (mod 6) contract: if either sub-solve answers "no
solution" the expert solve answers "no solution"; otherwise the facade
uses exactly the CRT-reconstructed press counts, and each reconstructed
entry is the unique value of `{0,…,5}` matching both sub-solutions. -/
theorem c4_composite_solve :
    (∀ board : List Int, board.length = 37 →
      (gaussian_elimination_mod (buildA 37 (adjOf ⟨37, 0, 6, false⟩))
          ((board.map (fun v => (1 - v) % 6)).map (· % 2)) 2 =
        Except.ok none ∨
       gaussian_elimination_mod (buildA 37 (adjOf ⟨37, 0, 6, false⟩))
          ((board.map (fun v => (1 - v) % 6)).map (· % 3)) 3 =
        Except.ok none) →
      solve board "expert" = Except.ok none) ∧
    (∀ (board x2 x3 : List Int), board.length = 37 →
      gaussCore 2 37 (augment (buildA 37 (adjOf ⟨37, 0, 6, false⟩))
        ((board.map (fun v => (1 - v) % 6)).map (· % 2))) = some x2 →
      gaussCore 3 37 (augment (buildA 37 (adjOf ⟨37, 0, 6, false⟩))
        ((board.map (fun v => (1 - v) % 6)).map (· % 3))) = some x3 →
      solveX ⟨37, 0, 6, false⟩ (buildA 37 (adjOf ⟨37, 0, 6, false⟩))
          (board.map (fun v => (1 - v) % 6)) true =
        Except.ok (some (crtCombine 37 x2 x3)) ∧
      (∀ i, i < 37 →
        0 ≤ (crtCombine 37 x2 x3).getD i 0 ∧
        (crtCombine 37 x2 x3).getD i 0 < 6 ∧
        (crtCombine 37 x2 x3).getD i 0 % 2 = x2.getD i 0 ∧
        (crtCombine 37 x2 x3).getD i 0 % 3 = x3.getD i 0 ∧
        ∀ k : Int, 0 ≤ k → k < 6 → k % 2 = x2.getD i 0 →
          k % 3 = x3.getD i 0 → k = (crtCombine 37 x2 x3).getD i 0)) := by
  have hbl2 : ∀ board : List Int, board.length = 37 →
      ((board.map (fun v => (1 - v) % 6)).map (· % 2)).length =
        (buildA 37 (adjOf ⟨37, 0, 6, false⟩)).length := by
    intro board h
    rw [List.length_map, List.length_map, h, buildA_length]
  have hbl3 : ∀ board : List Int, board.length = 37 →
      ((board.map (fun v => (1 - v) % 6)).map (· % 3)).length =
        (buildA 37 (adjOf ⟨37, 0, 6, false⟩)).length := by
    intro board h
    rw [List.length_map, List.length_map, h, buildA_length]
  constructor
  · intro board hlen hor
    rw [solve_expert_unfold, solveX_true_eq]
    rcases hor with h2 | h3
    · rw [h2]
      unfold gaussian_elimination_mod
      rw [if_pos (hbl3 board hlen)]
      rfl
    · unfold gaussian_elimination_mod at h3 ⊢
      rw [if_pos (hbl3 board hlen)] at h3
      rw [if_pos (hbl2 board hlen), if_pos (hbl3 board hlen)]
      have h3' : gaussCore 3
          (buildA 37 (adjOf ⟨37, 0, 6, false⟩)).length
          (augment (buildA 37 (adjOf ⟨37, 0, 6, false⟩))
            ((board.map (fun v => (1 - v) % 6)).map (· % 3))) = none := by
        injection h3
      rw [h3']
      rcases gaussCore 2 (buildA 37 (adjOf ⟨37, 0, 6, false⟩)).length
          (augment (buildA 37 (adjOf ⟨37, 0, 6, false⟩))
            ((board.map (fun v => (1 - v) % 6)).map (· % 2))) with _ | x2
      · rfl
      · rfl
  · intro board x2 x3 hlen hg2 hg3
    constructor
    · rw [solveX_true_eq]
      unfold gaussian_elimination_mod
      rw [if_pos (hbl2 board hlen), if_pos (hbl3 board hlen),
        buildA_length] at *
      rw [hg2, hg3]
      rfl
    · intro i hi
      have hr2 := gaussCore_range (by norm_num) hg2
      have hr3 := gaussCore_range (by norm_num) hg3
      have h2 := hr2.2 i
      have h3 := hr3.2 i
      rw [crtCombine_getD hi]
      obtain ⟨g2, g3, g0, g6⟩ := crtFind_spec h2.1 h2.2 h3.1 h3.2
      exact ⟨g0, g6, g2, g3, fun k hk0 hk6 hk2 hk3 =>
        crtFind_unique h2.1 h2.2 h3.1 h3.2 hk0 hk6 hk2 hk3⟩

lemma c4_h21 :
    gaussian_elimination_mod (buildA 37 (adjOf ⟨37, 0, 6, false⟩))
      ((badHardBoard.map (fun v => (1 - v) % 6)).map (· % 2)) 2 =
      Except.ok none := by
  have hb : (badHardBoard.map (fun v => (1 - v) % (6 : Int))).map
      (· % (2 : Int)) = b2badC := by decide
  rw [adjOf_hex, buildA_hex_eq, hb]
  unfold gaussian_elimination_mod
  have hlen : b2badC.length = AhexC.length := by decide
  rw [if_pos hlen]
  have h37 : AhexC.length = 37 := by decide
  rw [h37, gaussCore2_bad]

lemma c4_hg2 :
    gaussCore 2 37 (augment (buildA 37 (adjOf ⟨37, 0, 6, false⟩))
      (((List.replicate 37 (1 : Int)).map (fun v => (1 - v) % 6)).map
        (· % 2))) = some (List.replicate 37 0) := by
  have hb : ((List.replicate 37 (1 : Int)).map (fun v => (1 - v) % 6)).map
      (· % (2 : Int)) = List.replicate 37 (0 : Int) := by decide
  rw [adjOf_hex, buildA_hex_eq, hb]
  exact gaussCore2_zero

lemma c4_hg3 :
    gaussCore 3 37 (augment (buildA 37 (adjOf ⟨37, 0, 6, false⟩))
      (((List.replicate 37 (1 : Int)).map (fun v => (1 - v) % 6)).map
        (· % 3))) = some (List.replicate 37 0) := by
  have hb : ((List.replicate 37 (1 : Int)).map (fun v => (1 - v) % 6)).map
      (· % (3 : Int)) = List.replicate 37 (0 : Int) := by decide
  rw [adjOf_hex, buildA_hex_eq, hb]
  exact gaussCore3_zero

/-- Witness for C4: the single-unlit board is inconsistent mod 2 and the
all-ones board reconstructs the zero press-count vector. -/
theorem c4_composite_solve_witness :
    solve badHardBoard "expert" = Except.ok none ∧
    solveX ⟨37, 0, 6, false⟩ (buildA 37 (adjOf ⟨37, 0, 6, false⟩))
        ((List.replicate 37 (1 : Int)).map (fun v => (1 - v) % 6)) true =
      Except.ok (some (crtCombine 37 (List.replicate 37 0)
        (List.replicate 37 0))) := by
  constructor
  · exact c4_composite_solve.1 badHardBoard (by decide)
      (Or.inl c4_h21)
  · exact (c4_composite_solve.2 (List.replicate 37 (1 : Int))
      (List.replicate 37 0) (List.replicate 37 0) (by decide)
      c4_hg2 c4_hg3).1

/-! ## Hexagon topology: general-radius structure (C2, C6, C10) -/

lemma findIdx_beq_lt {α : Type} [BEq α] [LawfulBEq α] {c : α} :
    ∀ {l : List α}, c ∈ l → l.findIdx (· == c) < l.length := by
  intro l
  induction l with
  | nil => intro h; exact absurd h (List.not_mem_nil c)
  | cons a l ih =>
    intro h
    rw [List.findIdx_cons]
    by_cases hac : a == c
    · rw [hac]
      simp
    · rw [Bool.of_not_eq_true hac]
      have hcl : c ∈ l := by
        rcases List.mem_cons.1 h with rfl | h'
        · exact absurd (beq_iff_eq.2 rfl) hac
        · exact h'
      simpa using ih hcl

lemma getD_findIdx_beq {α : Type} [BEq α] [LawfulBEq α] {c d : α} :
    ∀ {l : List α}, c ∈ l → l.getD (l.findIdx (· == c)) d = c := by
  intro l
  induction l with
  | nil => intro h; exact absurd h (List.not_mem_nil c)
  | cons a l ih =>
    intro h
    rw [List.findIdx_cons]
    by_cases hac : a == c
    · rw [hac]
      exact beq_iff_eq.1 hac
    · rw [Bool.of_not_eq_true hac]
      have hcl : c ∈ l := by
        rcases List.mem_cons.1 h with rfl | h'
        · exact absurd (beq_iff_eq.2 rfl) hac
        · exact h'
      simpa using ih hcl

lemma findIdx_getD_nodup {α : Type} [BEq α] [LawfulBEq α] {d : α} :
    ∀ {l : List α}, l.Nodup → ∀ {j : Nat}, j < l.length →
      l.findIdx (· == l.getD j d) = j := by
  intro l
  induction l with
  | nil => intro _ j hj; exact absurd hj (by simp)
  | cons a l ih =>
    intro hnd j hj
    rcases List.nodup_cons.1 hnd with ⟨hal, hl⟩
    cases j with
    | zero =>
      rw [List.findIdx_cons]
      have : (a == (a :: l).getD 0 d) = true := beq_iff_eq.2 rfl
      rw [this]
      rfl
    | succ j =>
      have hjl : j < l.length := by simpa using hj
      have hgd : (a :: l).getD (j + 1) d = l.getD j d := rfl
      rw [List.findIdx_cons, hgd]
      have hmem : l.getD j d ∈ l := by
        rw [List.getD_eq_getElem?_getD, List.getElem?_eq_getElem hjl]
        exact List.getElem_mem _
      have hne : (a == l.getD j d) = false := by
        rw [beq_eq_false_iff_ne]
        intro hcon
        exact hal (hcon ▸ hmem)
      rw [hne]
      simpa using ih hl hjl

lemma intRange_nodup (lo hi : Int) : (intRange lo hi).Nodup := by
  unfold intRange
  refine List.Nodup.map ?_ (List.nodup_range _)
  intro x y h
  have h' : lo + Int.ofNat x = lo + Int.ofNat y := h
  exact Int.ofNat.inj (add_left_cancel h')

lemma axialCoords_nodup (R : Nat) : (axialCoords R).Nodup := by
  unfold axialCoords
  rw [List.nodup_flatMap]
  constructor
  · intro q _
    exact (intRange_nodup _ _).map (fun x y h => by
      injection h)
  · refine List.Pairwise.imp ?_ (intRange_nodup _ _)
    intro q q' hqq x hx1 hx2
    rcases List.mem_map.1 hx1 with ⟨r1, _, rfl⟩
    rcases List.mem_map.1 hx2 with ⟨r2, _, hx⟩
    exact hqq (congrArg Prod.fst hx).symm

lemma axialToOffset_inj : Function.Injective axialToOffset := by
  intro a b h
  unfold axialToOffset at h
  have h1 : a.1 = b.1 := congrArg Prod.snd h
  have h2 : a.2 + (a.1 - pyAnd1 a.1).fdiv 2 = b.2 + (b.1 - pyAnd1 b.1).fdiv 2 :=
    congrArg Prod.fst h
  rw [h1] at h2
  have h3 : a.2 = b.2 := by omega
  exact Prod.ext h1 h3

lemma normCell_inj (R : Nat) : Function.Injective (normCell R) := by
  intro a b h
  unfold normCell at h
  refine axialToOffset_inj ?_
  have h1 : (axialToOffset a).1 = (axialToOffset b).1 := by
    have := congrArg Prod.fst h
    simpa using (by omega : (axialToOffset a).1 - minRowC R =
      (axialToOffset b).1 - minRowC R → (axialToOffset a).1 =
        (axialToOffset b).1) (congrArg Prod.fst h)
  have h2 : (axialToOffset a).2 = (axialToOffset b).2 := by
    have := congrArg Prod.snd h
    simp only at this
    omega
  exact Prod.ext h1 h2

lemma sortedCoords_perm (R : Nat) :
    (sortedCoords R).Perm ((axialCoords R).map (normCell R)) :=
  List.perm_insertionSort _ _

lemma mem_sortedCoords {R : Nat} {c : Int × Int} :
    c ∈ sortedCoords R ↔ ∃ a ∈ axialCoords R, normCell R a = c := by
  rw [(sortedCoords_perm R).mem_iff, List.mem_map]

lemma sortedCoords_nodup (R : Nat) : (sortedCoords R).Nodup :=
  ((axialCoords_nodup R).map (normCell_inj R)).perm
    (sortedCoords_perm R).symm


/-! ### Neighbor relation and symmetry -/

lemma axialMem_iff {R : Nat} {a : Int × Int} :
    axialMem R a = true ↔ a ∈ axialCoords R := by
  simp [axialMem]

lemma hexDirs_neg : ∀ d ∈ hexDirs, (-d.1, -d.2) ∈ hexDirs := by decide

lemma hexDirs_ne_zero : ∀ d ∈ hexDirs, d ≠ ((0 : Int), (0 : Int)) := by decide

lemma mem_neighborsAxial {R : Nat} {a b : Int × Int} :
    b ∈ neighborsAxial R a ↔
      b = a ∨ (axialMem R b = true ∧ (b.1 - a.1, b.2 - a.2) ∈ hexDirs) := by
  unfold neighborsAxial
  rw [List.mem_cons]
  apply or_congr Iff.rfl
  rw [List.mem_filterMap]
  constructor
  · rintro ⟨d, hd, hfd⟩
    obtain ⟨d1, d2⟩ := d
    dsimp only at hfd
    split at hfd
    · next hm =>
      cases Option.some.inj hfd
      refine ⟨hm, ?_⟩
      simp only [add_sub_cancel_left]
      exact hd
    · exact absurd hfd (by simp)
  · rintro ⟨hm, hd⟩
    refine ⟨(b.1 - a.1, b.2 - a.2), hd, ?_⟩
    dsimp only
    have hb : (a.1 + (b.1 - a.1), a.2 + (b.2 - a.2)) = b := by
      obtain ⟨b1, b2⟩ := b
      simp only [Prod.mk.injEq]
      constructor <;> ring
    rw [hb, if_pos hm]

lemma mem_axialCoords_of_neighbor {R : Nat} {a b : Int × Int}
    (ha : a ∈ axialCoords R) (hb : b ∈ neighborsAxial R a) :
    b ∈ axialCoords R := by
  rcases mem_neighborsAxial.1 hb with rfl | ⟨hm, _⟩
  · exact ha
  · exact axialMem_iff.1 hm

lemma neighborsAxial_symm {R : Nat} {a b : Int × Int}
    (ha : a ∈ axialCoords R) (hb : b ∈ neighborsAxial R a) :
    a ∈ neighborsAxial R b := by
  rcases mem_neighborsAxial.1 hb with rfl | ⟨_, hd⟩
  · exact mem_neighborsAxial.2 (Or.inl rfl)
  · refine mem_neighborsAxial.2 (Or.inr ⟨axialMem_iff.2 ha, ?_⟩)
    have hneg := hexDirs_neg _ hd
    have he : (a.1 - b.1, a.2 - b.2) =
        (-(b.1 - a.1), -(b.2 - a.2)) := by
      simp only [Prod.mk.injEq]
      constructor <;> ring
    rw [he]
    exact hneg

/-! ### Rows of the hexagon adjacency map -/

lemma find_normCell {R : Nat} {c a : Int × Int}
    (ha : a ∈ axialCoords R) (hna : normCell R a = c) :
    (axialCoords R).find? (fun x => normCell R x == c) = some a := by
  have hpa : (normCell R a == c) = true := beq_iff_eq.2 hna
  have h1 : (axialCoords R).find? (fun x => normCell R x == c) ≠ none :=
    fun hn => absurd hpa ((List.find?_eq_none.1 hn) a ha)
  obtain ⟨a2, ha2⟩ := Option.ne_none_iff_exists'.1 h1
  have hpa2 : normCell R a2 = c := by simpa using List.find?_some ha2
  have he : a2 = a := normCell_inj R (hpa2.trans hna.symm)
  rw [ha2, he]

lemma mem_hexAdjRow_iff {R : Nat} {c a : Int × Int}
    (ha : a ∈ axialCoords R) (hna : normCell R a = c) {j : Nat} :
    j ∈ hexAdjRow R c ↔
      ∃ b ∈ neighborsAxial R a, coordToIndex R (normCell R b) = j := by
  unfold hexAdjRow
  rw [find_normCell ha hna]
  show j ∈ List.insertionSort (· ≤ ·)
      ((neighborsAxial R a).map (fun b => coordToIndex R (normCell R b))) ↔ _
  rw [(List.perm_insertionSort _ _).mem_iff, List.mem_map]

lemma coordToIndex_lt {R : Nat} {c : Int × Int} (hc : c ∈ sortedCoords R) :
    coordToIndex R c < (sortedCoords R).length :=
  findIdx_beq_lt hc

lemma getD_coordToIndex {R : Nat} {c : Int × Int} (hc : c ∈ sortedCoords R) :
    (sortedCoords R).getD (coordToIndex R c) (0, 0) = c :=
  getD_findIdx_beq hc

lemma coordToIndex_getD {R i : Nat} (hi : i < (sortedCoords R).length) :
    coordToIndex R ((sortedCoords R).getD i (0, 0)) = i :=
  findIdx_getD_nodup (sortedCoords_nodup R) hi

lemma hexAdjMap_length (R : Nat) :
    (hexAdjMap R).length = (sortedCoords R).length :=
  List.length_map _ _

lemma hexAdjMap_getD {R i : Nat} (hi : i < (sortedCoords R).length) :
    (hexAdjMap R).getD i [] = hexAdjRow R ((sortedCoords R).getD i (0, 0)) := by
  unfold hexAdjMap
  rw [List.getD_eq_getElem?_getD, List.getElem?_map, List.getElem?_eq_getElem hi,
    List.getD_eq_getElem?_getD, List.getElem?_eq_getElem hi]
  rfl

lemma mem_hexAdjRow_lt {R : Nat} {c : Int × Int} {j : Nat}
    (hj : j ∈ hexAdjRow R c) : j < (sortedCoords R).length := by
  unfold hexAdjRow at hj
  rcases hfind : (axialCoords R).find? (fun x => normCell R x == c) with _ | a
  · rw [hfind] at hj
    exact absurd hj (List.not_mem_nil j)
  · rw [hfind] at hj
    have hj2 : j ∈ List.insertionSort (· ≤ ·)
        ((neighborsAxial R a).map (fun b => coordToIndex R (normCell R b))) := hj
    rw [(List.perm_insertionSort _ _).mem_iff, List.mem_map] at hj2
    obtain ⟨b, hb, rfl⟩ := hj2
    have hbA : b ∈ axialCoords R :=
      mem_axialCoords_of_neighbor (List.mem_of_find?_eq_some hfind) hb
    exact coordToIndex_lt (mem_sortedCoords.2 ⟨b, hbA, rfl⟩)

lemma hexAdj_symm_dir (R i j : Nat) (h : j ∈ (hexAdjMap R).getD i []) :
    i ∈ (hexAdjMap R).getD j [] := by
  by_cases hi : i < (sortedCoords R).length
  · rw [hexAdjMap_getD hi] at h
    have hciS : (sortedCoords R).getD i (0, 0) ∈ sortedCoords R := by
      rw [List.getD_eq_getElem?_getD, List.getElem?_eq_getElem hi]
      exact List.getElem_mem _
    obtain ⟨a, haA, hna⟩ := mem_sortedCoords.1 hciS
    obtain ⟨b, hb, hj⟩ := (mem_hexAdjRow_iff haA hna).1 h
    have hbA : b ∈ axialCoords R := mem_axialCoords_of_neighbor haA hb
    have hcbS : normCell R b ∈ sortedCoords R := mem_sortedCoords.2 ⟨b, hbA, rfl⟩
    have hjlt : j < (sortedCoords R).length := hj ▸ coordToIndex_lt hcbS
    have hcb : (sortedCoords R).getD j (0, 0) = normCell R b := by
      rw [← hj]
      exact getD_coordToIndex hcbS
    rw [hexAdjMap_getD hjlt]
    refine (mem_hexAdjRow_iff hbA hcb.symm).2
      ⟨a, neighborsAxial_symm haA hb, ?_⟩
    rw [hna]
    exact coordToIndex_getD hi
  · have hle : (hexAdjMap R).length ≤ i := by
      rw [hexAdjMap_length]
      omega
    rw [List.getD_eq_default _ _ hle] at h
    exact absurd h (List.not_mem_nil j)

/-! ### Well-formedness of adjacency rows -/

lemma neighborsAxial_nodup (R : Nat) (a : Int × Int) :
    (neighborsAxial R a).Nodup := by
  unfold neighborsAxial
  rw [List.nodup_cons]
  constructor
  · intro hmem
    rw [List.mem_filterMap] at hmem
    obtain ⟨d, hd, hfd⟩ := hmem
    obtain ⟨d1, d2⟩ := d
    dsimp only at hfd
    split at hfd
    · have he : (a.1 + d1, a.2 + d2) = a := Option.some.inj hfd
      have h1 : a.1 + d1 = a.1 := congrArg Prod.fst he
      have h2 : a.2 + d2 = a.2 := congrArg Prod.snd he
      refine hexDirs_ne_zero (d1, d2) hd ?_
      simp only [Prod.mk.injEq]
      omega
    · exact absurd hfd (by simp)
  · refine List.Nodup.filterMap ?_ ?_
    · intro d d2 b hb hb2
      rw [Option.mem_def] at hb hb2
      dsimp only at hb hb2
      split at hb
      · split at hb2
        · have e1 : (a.1 + d.1, a.2 + d.2) = b := Option.some.inj hb
          have e2 : (a.1 + d2.1, a.2 + d2.2) = b := Option.some.inj hb2
          obtain ⟨x1, x2⟩ := d
          obtain ⟨y1, y2⟩ := d2
          have he := e1.trans e2.symm
          simp only [Prod.mk.injEq] at he ⊢
          omega
        · exact absurd hb2 (by simp)
      · exact absurd hb (by simp)
    · decide

lemma hexAdjRow_indices_nodup {R : Nat} {a : Int × Int}
    (ha : a ∈ axialCoords R) :
    ((neighborsAxial R a).map (fun b => coordToIndex R (normCell R b))).Nodup := by
  refine List.Nodup.map_on ?_ (neighborsAxial_nodup R a)
  intro x hx y hy hxy
  have hxA : x ∈ axialCoords R := mem_axialCoords_of_neighbor ha hx
  have hyA : y ∈ axialCoords R := mem_axialCoords_of_neighbor ha hy
  have hxS : normCell R x ∈ sortedCoords R := mem_sortedCoords.2 ⟨x, hxA, rfl⟩
  have hyS : normCell R y ∈ sortedCoords R := mem_sortedCoords.2 ⟨y, hyA, rfl⟩
  refine normCell_inj R ?_
  have h1 := getD_coordToIndex hxS
  have h2 := getD_coordToIndex hyS
  rw [← h1, ← h2, hxy]

lemma hexAdjRow_sorted (R : Nat) (c : Int × Int) :
    (hexAdjRow R c).Sorted (· < ·) := by
  unfold hexAdjRow
  rcases hfind : (axialCoords R).find? (fun x => normCell R x == c) with _ | a
  · exact List.sorted_nil
  · have haA := List.mem_of_find?_eq_some hfind
    have hsle : (List.insertionSort (· ≤ ·) ((neighborsAxial R a).map
        (fun b => coordToIndex R (normCell R b)))).Sorted (· ≤ ·) :=
      List.sorted_insertionSort _ _
    have hnd : (List.insertionSort (· ≤ ·) ((neighborsAxial R a).map
        (fun b => coordToIndex R (normCell R b)))).Nodup :=
      (hexAdjRow_indices_nodup haA).perm (List.perm_insertionSort _ _).symm
    exact hsle.lt_of_le hnd

lemma gridAdj_sorted (s k : Nat) : (gridAdj s k).Sorted (· < ·) :=
  List.Pairwise.sublist (List.filter_sublist _) (List.pairwise_lt_range _)

lemma mem_gridAdj_lt {s k j : Nat} (h : j ∈ gridAdj s k) : j < s * s := by
  unfold gridAdj at h
  exact List.mem_range.1 (List.mem_of_mem_filter h)

/-- C6.  For every radius, the hexagon adjacency map is symmetric: tile
`j` is in the affected list of tile `i` exactly when `i` is in the
affected list of `j`. -/
theorem c6_adjacency_symmetry :
    ∀ (R i j : Nat),
      j ∈ (hexAdjMap R).getD i [] ↔ i ∈ (hexAdjMap R).getD j [] :=
  fun R i j => ⟨hexAdj_symm_dir R i j, hexAdj_symm_dir R j i⟩

/-- C10.  Every adjacency row of either topology builder is strictly
increasing, and each listed index is a valid tile index for the board:
below the number of hexagon tiles, or below `s * s` on the grid. -/
theorem c10_adjacency_wellformed :
    (∀ R i : Nat, ((hexAdjMap R).getD i []).Sorted (· < ·) ∧
      ∀ j ∈ (hexAdjMap R).getD i [], j < (hexAdjMap R).length) ∧
    (∀ s k : Nat, (gridAdj s k).Sorted (· < ·) ∧
      ∀ j ∈ gridAdj s k, j < s * s) := by
  constructor
  · intro R i
    by_cases hi : i < (sortedCoords R).length
    · rw [hexAdjMap_getD hi]
      refine ⟨hexAdjRow_sorted R _, fun j hj => ?_⟩
      rw [hexAdjMap_length]
      exact mem_hexAdjRow_lt hj
    · have hle : (hexAdjMap R).length ≤ i := by
        rw [hexAdjMap_length]
        omega
      rw [List.getD_eq_default _ _ hle]
      exact ⟨List.sorted_nil, fun j hj => absurd hj (List.not_mem_nil j)⟩
  · exact fun s k => ⟨gridAdj_sorted s k, fun j hj => mem_gridAdj_lt hj⟩

/-- C2.  The radius-3 adjacency map has 37 rows, and rows 18, 21 and 32
are exactly the fixture lists. -/
theorem c2_radius3_fixtures :
    (hexAdjMap 3).length = 37 ∧
    (hexAdjMap 3).getD 18 [] = [11, 12, 17, 18, 19, 24, 25] ∧
    (hexAdjMap 3).getD 21 [] = [14, 20, 21, 27] ∧
    (hexAdjMap 3).getD 32 [] = [26, 27, 31, 32, 36] := by
  rw [hexAdjMap3_eq]
  decide

set_option maxRecDepth 400000 in
/-- Witness for C1 at the all-ones easy board: the facade returns the
empty step list and the untouched board is all ones. -/
theorem c1_solution_roundtrip_witness :
    difficultyConfig "easy" = some ⟨9, 3, 4, true⟩ ∧
    (List.replicate 9 (1 : Int)).length = (⟨9, 3, 4, true⟩ : Config).n ∧
    (∀ v ∈ List.replicate 9 (1 : Int),
      0 ≤ v ∧ v < (⟨9, 3, 4, true⟩ : Config).modulus) ∧
    solve (List.replicate 9 (1 : Int)) "easy" = Except.ok (some []) ∧
    ∀ v ∈ finalBoardOf [] (List.replicate 9 (1 : Int)), v = 1 :=
  ⟨rfl, rfl, by decide, by rfl,
    c1_solution_roundtrip "easy" ⟨9, 3, 4, true⟩ (List.replicate 9 (1 : Int))
      [] rfl rfl (by decide) (by rfl)⟩

end ArrowSolver
